import Mathlib

/-!
OpenDungeons: frame codec, client receive loop, server threads, central tile of a building.

A shallow embedding of `src/src/Server.cpp`, `src/src/Client.cpp` and of
`Building::getCentralTile` in `src/source/entities/Building.cpp`.

* `std::string` is a list of characters (`Str`).
* `int` is a 32-bit two's complement integer, `unsigned int` a 32-bit and `size_t` a 64-bit
  unsigned integer; the conversions between them are the explicit functions `toInt`, `toUInt`
  and `toSizeT`.
* `std::string::substr` throws `out_of_range` when its start position is past the end; a thrown
  exception is the result `Except.error Fault.outOfRange`.
* A socket is observed through the operations performed on it (`Op`); what `recv` returns is
  given by a script, the list of the results of the successive calls.
* Loops that the source runs for ever take a bound `fuel` on their number of iterations.
-/

namespace OpenDungeons

/-! ## Strings and machine integers -/

/-- A `std::string`. -/
abbrev Str := List Char

/-- The constant `std::string::npos`, the largest `size_t`. -/
def npos : Nat := 18446744073709551615

/-- Conversion of an integer value to `int` (32 bits, two's complement). -/
def toInt (z : Int) : Int := (z + 2147483648) % 4294967296 - 2147483648

/-- Conversion of an integer value to `unsigned int` (32 bits). -/
def toUInt (z : Int) : Nat := (z % 4294967296).toNat

/-- Conversion of an integer value to `size_t` (64 bits). -/
def toSizeT (z : Int) : Nat := (z % 18446744073709551616).toNat

/-- The call `s.find(c)` for a one-character pattern: the position of the first occurrence of
`c` in `s`, or `npos`. -/
def find (s : Str) (c : Char) : Nat := if c ∈ s then s.indexOf c else npos

/-- Ways in which a run of the modelled code ends without a result. -/
inductive Fault where
  | outOfRange
  | emptyQueue
  | exited
  | outOfFuel
deriving DecidableEq, Repr

deriving instance DecidableEq for Except

/-- The call `s.substr(pos, count)`: throws when `pos > s.size()`, otherwise the characters
`[pos, pos + min(count, size - pos))`. -/
def substr (s : Str) (pos count : Nat) : Except Fault Str :=
  if pos ≤ s.length then .ok ((s.drop pos).take count) else .error .outOfRange

/-- Decimal text of an integer, as stream insertion prints it. -/
def showInt (z : Int) : Str :=
  if z < 0 then '-' :: Nat.toDigits 10 z.natAbs else Nat.toDigits 10 z.toNat

/-! ## Frame codec (`Server.cpp` lines 75-122) -/

/-- The function `formatCommand` (`Server.cpp` 75-79). -/
def formatCommand (command arguments : Str) : Str :=
  "<".toList ++ command ++ ":".toList ++ arguments ++ ">".toList

/-- The values `parseCommand` leaves behind: its return value and its three reference
parameters after the call. -/
structure ParseResult where
  ret : Bool
  command : Str
  commandName : Str
  arguments : Str
deriving DecidableEq, Repr

/-- The function `parseCommand` (`Server.cpp` 88-107); the argument is the value of the
reference parameter `command` before the call. -/
def parseCommand (command : Str) : Except Fault ParseResult := do
  let index := toInt (find command '<')
  let index2 := toInt (find command ':')
  let commandName ← substr command (toSizeT (toInt (index + 1))) (toSizeT (toInt (index2 - 1)))
  let index := index2
  let index2 := toInt (find command '>')
  let arguments ← substr command (toSizeT (toInt (index + 1)))
    (toSizeT (toInt (index2 - index - 1)))
  let tempString ← substr command (toSizeT (toInt (index2 + 1)))
    (toSizeT ((command.length : Int) - index2 + 1))
  pure ⟨decide (tempString.length > 0), tempString, commandName, arguments⟩

/-- A `ChatMessage` (nick and text; the timestamp `time(NULL)` is left out). -/
structure ChatMessage where
  clientNick : Str
  message : Str
deriving DecidableEq, Repr

/-- The function `processChatMessage` (`Server.cpp` 115-122). -/
def processChatMessage (arguments : Str) : Except Fault ChatMessage := do
  let index := toInt (find arguments ':')
  let messageNick ← substr arguments 0 (toSizeT index)
  let message ← substr arguments (toSizeT (toInt (index + 1)))
    (toSizeT ((arguments.length : Int) - index - 1))
  pure ⟨messageNick, message⟩

/-! ## Sockets -/

/-- An operation performed on a socket or on its semaphore. -/
inductive Op where
  | semWait
  | semPost
  | send (data : Str)
  | recv
deriving DecidableEq, Repr

/-- The results of the successive calls of `recv` on one socket: the returned length and the
string stored in the argument. -/
abbrev Script := List (Int × Str)

/-- One call of `Socket::recv`: the next scripted result; when the script is used up the peer
has closed the connection (length `0`, empty string). -/
def recv (script : Script) : (Int × Str) × Script :=
  match script with
  | [] => ((0, []), [])
  | x :: rest => (x, rest)

/-! ## Client receive loop (`Client.cpp`) -/

/-- The client-side state that `clientSocketProcessor` reads and writes. Tiles, class
descriptions and creatures are kept as the wire text they were built from. `dispatched` is a
ghost trace of the `(serverCommand, arguments)` pairs on which the body of the do-while loop
ran. -/
structure ClientState where
  valid : Bool
  nick : Str
  log : List Op
  chatMessages : List ChatMessage
  tiles : List Str
  classDescriptions : List Str
  creatures : List Str
  turnsPerSecond : Str
  turnNumber : Str
  dispatched : List (Str × Str)
deriving DecidableEq, Repr

/-- The guarded send `sem_wait; send; sem_post` on the client's socket. -/
def ClientState.guardedSend (st : ClientState) (data : Str) : ClientState :=
  { st with log := st.log ++ [Op.semWait, Op.send data, Op.semPost] }

/-- The if-else chain of the do-while body (`Client.cpp` 70-241). Updates of a creature or a
tile found by name or coordinates touch no field of `ClientState`. -/
def dispatch (st0 : ClientState) (serverCommand arguments : Str) : Except Fault ClientState :=
  let st := { st0 with dispatched := st0.dispatched ++ [(serverCommand, arguments)] }
  if serverCommand = "picknick".toList then
    pure (st.guardedSend (formatCommand "setnick".toList st.nick))
  else if serverCommand = "chat".toList then do
    let newMessage ← processChatMessage arguments
    pure { st with chatMessages := st.chatMessages ++ [newMessage] }
  else if serverCommand = "newmap".toList then
    pure { st with tiles := [], classDescriptions := [], creatures := [] }
  else if serverCommand = "turnsPerSecond".toList then
    pure { st with turnsPerSecond := arguments }
  else if serverCommand = "addtile".toList then
    pure ({ st with tiles := st.tiles ++ [arguments] }.guardedSend
      (formatCommand "ok".toList "addtile".toList))
  else if serverCommand = "addclass".toList then
    pure ({ st with classDescriptions := st.classDescriptions ++ [arguments] }.guardedSend
      (formatCommand "ok".toList "addclass".toList))
  else if serverCommand = "addcreature".toList then
    pure ({ st with creatures := st.creatures ++ [arguments] }.guardedSend
      (formatCommand "ok".toList "addcreature".toList))
  else if serverCommand = "newturn".toList then
    pure { st with turnNumber := arguments }
  else if serverCommand = "creatureAddDestination".toList then
    pure st
  else if serverCommand = "creatureSetAnimationState".toList then
    pure st
  else if serverCommand = "tileFullnessChange".toList then
    pure st
  else
    pure st

/-- The do-while loop (`Client.cpp` 65-245): run the body on the current command, parse the
next one, repeat while that parse returned true. -/
def drain : Nat → ClientState → Str → Str → Str → Except Fault ClientState
  | 0, _, _, _, _ => .error .outOfFuel
  | fuel + 1, st, commandFromServer, serverCommand, arguments => do
    let st1 ← dispatch st serverCommand arguments
    let r ← parseCommand commandFromServer
    if r.ret then drain fuel st1 r.command r.commandName r.arguments else pure st1

/-- The first `parseCommand` followed by the do-while loop (`Client.cpp` 64-245): everything
the client does with an accumulated buffer before it reads again. -/
def processBuffer (fuel : Nat) (st : ClientState) (commandFromServer : Str) :
    Except Fault ClientState := do
  let r ← parseCommand commandFromServer
  drain fuel st r.command r.commandName r.arguments

/-- The loop `while(!packetComplete)` (`Client.cpp` 40-60): `none` when a receive reports a
length `<= 0`, otherwise the accumulated buffer, whose last character is `>`. -/
def recvLoop (st : ClientState) (commandFromServer : Str) :
    Script → ClientState × Option Str × Script
  | [] => ({ st with log := st.log ++ [Op.recv] }, none, [])
  | (charsRead, tempString) :: rest =>
    let st1 := { st with log := st.log ++ [Op.recv] }
    if charsRead ≤ 0 then (st1, none, rest)
    else
      let buffer := commandFromServer ++ tempString
      if buffer.getLast? = some '>' then (st1, some buffer, rest)
      else recvLoop st1 buffer rest

/-- The loop `while(sock->is_valid())` (`Client.cpp` 31-246). -/
def clientLoop : Nat → Script → ClientState → Except Fault ClientState
  | 0, _, _ => .error .outOfFuel
  | fuel + 1, script, st =>
    if st.valid then
      match recvLoop st [] script with
      | (st1, none, _) =>
        pure { st1 with chatMessages := st1.chatMessages ++
          [⟨"SERVER_INFORMATION".toList, "Server disconnect.".toList⟩] }
      | (st1, some commandFromServer, rest) => do
        let st2 ← processBuffer fuel st1 commandFromServer
        clientLoop fuel rest st2
    else pure st

/-- The thread function `clientSocketProcessor` (`Client.cpp` 19-250); `version` is the
constant `VERSION` of `Defines.h`. -/
def clientSocketProcessor (fuel : Nat) (version : Str) (script : Script) (st : ClientState) :
    Except Fault ClientState :=
  clientLoop fuel script
    (st.guardedSend (formatCommand "hello".toList ("OpenDungeons V ".toList ++ version)))

/-! ## Server state -/

/-- A connection of the server: the identity of a `Socket*`. -/
abbrev ConnId := Nat

/-- An `Ogre::Vector3`; each coordinate is the text stream insertion prints for it. -/
structure Vector3 where
  x : Str
  y : Str
  z : Str
deriving DecidableEq, Repr

/-- The fields of a `Tile` read by the server threads; `text` is what `tempSS << tile` prints
and `fullness` what `tempSS << getFullness()` prints. -/
structure Tile where
  x : Int
  y : Int
  fullness : Str
  text : Str
deriving DecidableEq, Repr

/-- The fields of a `Creature` read by the server threads; floating-point fields are the text
stream insertion prints for them and `text` is what `tempSS << creature` prints. -/
structure Creature where
  name : Str
  className : Str
  meshName : Str
  scale : Vector3
  hp : Int
  mana : Int
  sightRadius : Str
  digRate : Str
  text : Str
deriving DecidableEq, Repr

/-- The parts of `gameMap` the session handler iterates over. -/
structure GameMap where
  tiles : List Tile
  classDescriptions : List Creature
  creatures : List Creature
deriving DecidableEq, Repr

/-- The enumeration `ServerNotification::type`; `other` stands for every enumerator without a
case in the switch of `serverNotificationProcessor`. -/
inductive NotificationType where
  | turnStarted
  | creatureAddDestination
  | creatureSetAnimationState
  | setTurnsPerSecond
  | tileFullnessChange
  | other
deriving DecidableEq, Repr

/-- A `ServerNotification` with the fields the broadcaster reads. -/
structure ServerNotification where
  type : NotificationType
  str : Str
  vec : Vector3
  cre : Creature
  tile : Tile
deriving DecidableEq, Repr

/-- The globals the server threads share: the client registry `clientSockets`, the chat log,
the operations performed so far on every connection, the turn counter, the text of
`turnsPerSecond`, the notification queue (a null pointer is `none`) with the count of its
semaphore, and the game map. `sendFails` lists the connections on which `Socket::send` fails
(the peer is gone); `Socket.cpp` is not among the sources. -/
structure ServerState where
  clientSockets : List ConnId
  chatMessages : List ChatMessage
  log : List (ConnId × Op)
  turnNumber : Int
  turnsPerSecond : Str
  serverNotificationQueue : List (Option ServerNotification)
  serverNotificationQueueSemaphore : Nat
  gameMap : GameMap
  sendFails : List ConnId := []
deriving DecidableEq, Repr

/-- Record one operation on connection `c`. -/
def ServerState.op (st : ServerState) (c : ConnId) (o : Op) : ServerState :=
  { st with log := st.log ++ [(c, o)] }

/-- Append a message to `chatMessages`. -/
def ServerState.chat (st : ServerState) (nick message : Str) : ServerState :=
  { st with chatMessages := st.chatMessages ++ [⟨nick, message⟩] }

/-- The frames sent to connection `c` in a log, in order. -/
def sentTo (c : ConnId) (log : List (ConnId × Op)) : List Str :=
  log.filterMap fun e =>
    match e with
    | (c1, Op.send data) => if c1 = c then some data else none
    | _ => none

/-- The sends and receives performed on connection `c` in a log, in order. -/
def transfers (c : ConnId) (log : List (ConnId × Op)) : List Op :=
  log.filterMap fun e =>
    match e with
    | (c1, Op.send data) => if c1 = c then some (Op.send data) else none
    | (c1, Op.recv) => if c1 = c then some Op.recv else none
    | _ => none

/-! ## Notification queue and broadcaster (`Server.cpp` 156-160, 195-264, 424-432) -/

/-- One call of `Socket::send` on connection `c`: the attempt is recorded, and the returned
status is `false` when the send fails. -/
def ServerState.send (st : ServerState) (c : ConnId) (data : Str) : Bool × ServerState :=
  (decide (c ∉ st.sendFails), st.op c (Op.send data))

/-- The function `sendToAllClients` (`Server.cpp` 424-432); the status that `send` returns is
not looked at. -/
def sendToAllClients (st : ServerState) (str : Str) : ServerState :=
  st.clientSockets.foldl
    (fun s c => ((s.op c Op.semWait).send c str).2.op c Op.semPost) st

/-- Appending an event to the notification queue: `push_back` followed by `sem_post`
(`Server.cpp` 159-160). -/
def enqueue (st : ServerState) (event : Option ServerNotification) : ServerState :=
  { st with
    serverNotificationQueue := st.serverNotificationQueue ++ [event]
    serverNotificationQueueSemaphore := st.serverNotificationQueueSemaphore + 1 }

/-- The frame the switch of `serverNotificationProcessor` builds for an event of a handled
kind (`Server.cpp` 218-253); `none` for the default case. -/
def encodeNotification (st : ServerState) (event : ServerNotification) : Option Str :=
  match event.type with
  | .turnStarted => some (formatCommand "newturn".toList (showInt st.turnNumber))
  | .creatureAddDestination =>
    some (formatCommand "creatureAddDestination".toList
      (event.str ++ ":".toList ++ event.vec.x ++ ":".toList ++ event.vec.y ++ ":".toList
        ++ event.vec.z))
  | .creatureSetAnimationState =>
    some (formatCommand "creatureSetAnimationState".toList
      (event.cre.name ++ ":".toList ++ event.str))
  | .setTurnsPerSecond => some (formatCommand "turnsPerSecond".toList st.turnsPerSecond)
  | .tileFullnessChange =>
    some (formatCommand "tileFullnessChange".toList
      (event.tile.fullness ++ ":".toList ++ showInt event.tile.x ++ ":".toList
        ++ showInt event.tile.y))
  | .other => none

/-- The thread function `serverNotificationProcessor` (`Server.cpp` 195-264). The loop stops
where `sem_wait` would block (count `0`); `front()` on an empty queue is `Fault.emptyQueue` and
the default case of the switch, `exit(1)`, is `Fault.exited`. -/
def serverNotificationProcessor : Nat → ServerState → Except Fault ServerState
  | 0, _ => .error .outOfFuel
  | fuel + 1, st =>
    if st.serverNotificationQueueSemaphore = 0 then pure st
    else
      let st1 := { st with
        serverNotificationQueueSemaphore := st.serverNotificationQueueSemaphore - 1 }
      match st1.serverNotificationQueue with
      | [] => .error .emptyQueue
      | event :: rest =>
        let st2 := { st1 with serverNotificationQueue := rest }
        match event with
        | none => serverNotificationProcessor fuel st2
        | some ev =>
          match encodeNotification st2 ev with
          | some frame => serverNotificationProcessor fuel (sendToAllClients st2 frame)
          | none => .error .exited

/-! ## Session handler (`Server.cpp` 274-422) -/

/-- One snapshot loop of the `hello` branch: for every item send its frame, then receive and
throw away the reply (`Server.cpp` 335-344, 348-365, 369-381). -/
def sendItems (curSock : ConnId) (command : Str) :
    List Str → ServerState → Script → ServerState × Script
  | [], st, script => (st, script)
  | item :: items, st, script =>
    let st1 := st.op curSock (Op.send (formatCommand command item))
    let st2 := st1.op curSock Op.recv
    sendItems curSock command items st2 (recv script).2

/-- The text of a class description built at `Server.cpp` 357-360. -/
def classText (c : Creature) : Str :=
  c.className ++ "\t".toList ++ c.meshName ++ "\t".toList
    ++ c.scale.x ++ "\t".toList ++ c.scale.y ++ "\t".toList ++ c.scale.z ++ "\t".toList
    ++ showInt c.hp ++ "\t".toList ++ showInt c.mana ++ "\t".toList
    ++ c.sightRadius ++ "\t".toList ++ c.digRate ++ "\n".toList

/-- The branch for the command `hello` (`Server.cpp` 314-392); returns the state, the new
`clientNick` and the rest of the script. -/
def helloBranch (curSock : ConnId) (arguments : Str) (st : ServerState) (script : Script) :
    Except Fault (ServerState × Str × Script) := do
  let st := st.chat "SERVER_INFORMATION".toList
    ("Client connect with version: ".toList ++ arguments)
  let st := st.op curSock Op.semWait
  let st := st.op curSock (Op.send (formatCommand "picknick".toList []))
  let st := st.op curSock Op.recv
  let ((_, tempString), script) := recv script
  let r ← parseCommand tempString
  let clientNick := r.arguments
  let st := st.chat "SERVER_INFORMATION".toList ("Client nick is: ".toList ++ clientNick)
  let st := st.op curSock (Op.send (formatCommand "newmap".toList []))
  let (st, script) := sendItems curSock "addtile".toList
    (st.gameMap.tiles.map Tile.text) st script
  let (st, script) := sendItems curSock "addclass".toList
    (st.gameMap.classDescriptions.map classText) st script
  let (st, script) := sendItems curSock "addcreature".toList
    (st.gameMap.creatures.map Creature.text) st script
  let st := st.op curSock Op.semPost
  pure (st, clientNick, script)

/-- The relay loop of the `chat` branch (`Server.cpp` 408-413). -/
def relay (st : ServerState) (frame : Str) : ServerState :=
  st.clientSockets.foldl
    (fun s c => ((s.op c Op.semWait).op c (Op.send frame)).op c Op.semPost) st

/-- The branch for the command `chat` (`Server.cpp` 403-417). -/
def chatBranch (arguments : Str) (st : ServerState) : Except Fault ServerState := do
  let newMessage ← processChatMessage arguments
  let st := relay st
    (formatCommand "chat".toList (newMessage.clientNick ++ ":".toList ++ newMessage.message))
  pure { st with chatMessages := st.chatMessages ++ [newMessage] }

/-- What one iteration of the handler loop ends with: `break` or the next iteration. -/
inductive Flow where
  | next
  | done
deriving DecidableEq, Repr

/-- One iteration of the loop `while(true)` of `clientHandlerThread` (`Server.cpp` 283-418);
returns how the iteration ended, the state, `clientNick` and the rest of the script. -/
def handlerIteration (curSock : ConnId) (clientNick : Str) (st : ServerState)
    (script : Script) : Except Fault (Flow × ServerState × Str × Script) :=
  let st := st.op curSock Op.recv
  let ((charsRead, tempString), script) := recv script
  if charsRead ≤ 0 then
    pure (Flow.done,
      st.chat "SERVER_INFORMATION".toList ("Client disconnect: ".toList ++ clientNick),
      clientNick, script)
  else
    let index := toUInt (find tempString ':')
    if index = npos then pure (Flow.next, st, clientNick, script)
    else do
      let r ← parseCommand tempString
      if r.commandName = "hello".toList then do
        let (st, nick, script) ← helloBranch curSock r.arguments st script
        pure (Flow.next, st, nick, script)
      else if r.commandName = "chat".toList then do
        let st ← chatBranch r.arguments st
        pure (Flow.next, st, clientNick, script)
      else pure (Flow.next, st, clientNick, script)

/-- The loop `while(true)` of `clientHandlerThread`, from a given `clientNick`. -/
def handlerLoop (curSock : ConnId) : Nat → Str → ServerState → Script →
    Except Fault ServerState
  | 0, _, _, _ => .error .outOfFuel
  | fuel + 1, clientNick, st, script => do
    let (flow, st1, nick, rest) ← handlerIteration curSock clientNick st script
    match flow with
    | Flow.done => pure st1
    | Flow.next => handlerLoop curSock fuel nick st1 rest

/-- The thread function `clientHandlerThread` (`Server.cpp` 274-422). -/
def clientHandlerThread (fuel : Nat) (curSock : ConnId) (st : ServerState) (script : Script) :
    Except Fault ServerState :=
  handlerLoop curSock fuel "UNSET_CLIENT_NICKNAME".toList st script

/-! ## Turn scheduler (`Server.cpp` 142-186) -/

/-- A creature with every field empty: the value a notification's `cre` has when it was not
set. -/
def blankCreature : Creature :=
  { name := [], className := [], meshName := [], scale := ⟨[], [], []⟩, hp := 0, mana := 0,
    sightRadius := [], digRate := [], text := [] }

/-- The notification built at `Server.cpp` 157-158: a new `ServerNotification` whose `type` is
set to `turnStarted` and whose other fields are not set. -/
def turnStartedNotification : ServerNotification :=
  { type := NotificationType.turnStarted, str := [], vec := ⟨[], [], []⟩, cre := blankCreature,
    tile := ⟨0, 0, [], []⟩ }

/-- One cycle of the loop of `creatureAIThread` (`Server.cpp` 148-182): append the
`turnStarted` notification, run `gameMap.doTurn()` (not among the sources, the parameter
`doTurn`), increment `turnNumber`. The stopwatch and the sleep touch no state. -/
def creatureAICycle (doTurn : ServerState → ServerState) (st : ServerState) : ServerState :=
  let st1 := enqueue st (some turnStartedNotification)
  let st2 := doTurn st1
  { st2 with turnNumber := st2.turnNumber + 1 }

/-- The thread function `creatureAIThread` (`Server.cpp` 142-186), run for `cycles` complete
cycles of its loop. -/
def creatureAIThread (doTurn : ServerState → ServerState) : Nat → ServerState → ServerState
  | 0, st => st
  | cycles + 1, st => creatureAIThread doTurn cycles (creatureAICycle doTurn st)

/-! ## Buildings (`Building.cpp` 199-224) -/

/-- The four local variables of `Building::getCentralTile`. -/
structure Bounds where
  minX : Int
  maxX : Int
  minY : Int
  maxY : Int
deriving DecidableEq, Repr

/-- The body of the loop of `Building::getCentralTile` (`Building.cpp` 210-220) for one
covered tile. -/
def boundsStep (b : Bounds) (t : Tile) : Bounds :=
  let tempX := t.x
  let tempY := t.y
  let minX := if tempX < b.minX then tempX else b.minX
  let minY := if tempY < b.minY then tempY else b.minY
  let maxX := if tempX > b.maxX then tempX else b.maxX
  let maxY := if tempY > b.maxY then tempY else b.maxY
  { minX := minX, maxX := maxX, minY := minY, maxY := maxY }

/-- The function `Building::getCentralTile` (`Building.cpp` 199-224) on the covered tiles
`mCoveredTiles`; `getTile` is `GameMap::getTile`, which is not among the sources, and a null
pointer is `none`. The sums are `int` additions and `/` is the truncating division of C++. -/
def getCentralTile (getTile : Int → Int → Option Tile) (mCoveredTiles : List Tile) :
    Option Tile :=
  match mCoveredTiles with
  | [] => none
  | first :: _ =>
    let b := mCoveredTiles.foldl boundsStep
      { minX := first.x, maxX := first.x, minY := first.y, maxY := first.y }
    getTile (Int.tdiv (toInt (b.minX + b.maxX)) 2) (Int.tdiv (toInt (b.minY + b.maxY)) 2)

/-! ## Vocabulary of the statements -/

/-- The position `find` reports, read as an `int`: the index of the first occurrence, or
`-1`. -/
def idx (s : Str) (c : Char) : Int := if c ∈ s then (s.indexOf c : Int) else -1

/-- The frame `<c:a>` behind the bytes `p` and before the bytes `r`, as one buffer. -/
def framed (p c a r : Str) : Str := p ++ '<' :: (c ++ ':' :: (a ++ '>' :: r))

/-- The operations of one snapshot loop on a connection: per item, the send of its frame
followed by one receive. -/
def snapshotItems (command : Str) (items : List Str) : List Op :=
  items.flatMap fun item => [Op.send (formatCommand command item), Op.recv]

/-- The sends and receives the `hello` branch is to perform, in order. -/
def helloTransfers (g : GameMap) : List Op :=
  [Op.send (formatCommand "picknick".toList []), Op.recv,
    Op.send (formatCommand "newmap".toList [])]
  ++ snapshotItems "addtile".toList (g.tiles.map Tile.text)
  ++ snapshotItems "addclass".toList (g.classDescriptions.map classText)
  ++ snapshotItems "addcreature".toList (g.creatures.map Creature.text)

/-- Whether an operation is a send. -/
def Op.isSend : Op → Bool
  | Op.send _ => true
  | _ => false

/-- Whether an operation is a receive. -/
def Op.isRecv : Op → Bool
  | Op.recv => true
  | _ => false

/-- The guarded send `sem_wait; send; sem_post` of one frame on connection `c`. -/
def guardedOps (frame : Str) (c : ConnId) : List (ConnId × Op) :=
  [(c, Op.semWait), (c, Op.send frame), (c, Op.semPost)]

/-- The frame of an event of a handled kind (empty for the others). -/
def frameOf (st : ServerState) (event : ServerNotification) : Str :=
  (encodeNotification st event).getD []

/-- Appending a list of non-null events to the notification queue, one after the other. -/
def enqueueAll (st : ServerState) (events : List ServerNotification) : ServerState :=
  events.foldl (fun s e => enqueue s (some e)) st

/-- The server of the scenario: three tiles, one creature class, two creatures, two turns per
second, and two registered connections `1` and `2`. -/
def scenarioServer : ServerState :=
  let imp : Creature :=
    { name := [], className := "Imp".toList, meshName := "Imp.mesh".toList,
      scale := ⟨"1".toList, "1".toList, "1".toList⟩, hp := 10, mana := 5,
      sightRadius := "7.5".toList, digRate := "2".toList, text := "Imp".toList }
  { clientSockets := [1, 2]
    chatMessages := []
    log := []
    turnNumber := 7
    turnsPerSecond := "2".toList
    serverNotificationQueue := []
    serverNotificationQueueSemaphore := 0
    gameMap :=
      { tiles := [⟨0, 0, "100".toList, "0 0 1 100".toList⟩, ⟨0, 1, "0".toList, "0 1 0 0".toList⟩,
          ⟨1, 0, "50".toList, "1 0 1 50".toList⟩]
        classDescriptions := [imp]
        creatures := [{ imp with name := "Imp_1".toList, text := "Imp Imp_1 0 0 0".toList },
          { imp with name := "Imp_2".toList, text := "Imp Imp_2 1 0 0".toList }] } }

/-- A client that has just connected. -/
def freshClient (nick : Str) : ClientState :=
  { valid := true, nick := nick, log := [], chatMessages := [], tiles := [],
    classDescriptions := [], creatures := [], turnsPerSecond := [], turnNumber := [],
    dispatched := [] }

/-- The replies of the client in the scenario: its nick, then one acknowledgement per
snapshot item. -/
def scenarioReplies : Script :=
  [(13, "<setnick:Bob>".toList), (12, "<ok:addtile>".toList), (12, "<ok:addtile>".toList),
    (12, "<ok:addtile>".toList), (13, "<ok:addclass>".toList),
    (16, "<ok:addcreature>".toList), (16, "<ok:addcreature>".toList)]

/-- A notification of kind `t` about the first tile and the first creature of the scenario. -/
def scenarioEvent (t : NotificationType) : ServerNotification :=
  { type := t
    str := "walk".toList
    vec := ⟨"1".toList, "2".toList, "0".toList⟩
    cre := { name := "Imp_1".toList, className := "Imp".toList, meshName := "Imp.mesh".toList,
             scale := ⟨"1".toList, "1".toList, "1".toList⟩, hp := 10, mana := 5,
             sightRadius := "7.5".toList, digRate := "2".toList, text := "Imp Imp_1 0 0 0".toList }
    tile := ⟨0, 0, "100".toList, "0 0 1 100".toList⟩ }

/-- The bytes of a list of frames `(command, arguments)`, one after the other. -/
def encodeFrames (frames : List (Str × Str)) : Str :=
  frames.flatMap fun f => formatCommand f.1 f.2

/-- A frame whose command and arguments contain none of `<`, `:`, `>`. -/
def DelimiterFree (f : Str × Str) : Prop :=
  ('<' ∉ f.1 ∧ ':' ∉ f.1 ∧ '>' ∉ f.1) ∧ ('<' ∉ f.2 ∧ ':' ∉ f.2 ∧ '>' ∉ f.2)

/-- The frames among a list of operations of the client's socket, in order. -/
def sends (ops : List Op) : List Str :=
  ops.filterMap fun o =>
    match o with
    | Op.send data => some data
    | _ => none

/-- The reply table of the client: the frames it is to send back for a dispatched command. -/
def replyTable (nick serverCommand : Str) : List Str :=
  if serverCommand = "picknick".toList then [formatCommand "setnick".toList nick]
  else if serverCommand = "addtile".toList then [formatCommand "ok".toList serverCommand]
  else if serverCommand = "addclass".toList then [formatCommand "ok".toList serverCommand]
  else if serverCommand = "addcreature".toList then [formatCommand "ok".toList serverCommand]
  else []

/-- The send attempts in a log: connection and frame, in order. -/
def sendAttempts (log : List (ConnId × Op)) : List (ConnId × Str) :=
  log.filterMap fun e =>
    match e with
    | (c, Op.send data) => some (c, data)
    | _ => none

/-- Scan of the operations on one connection for the send-guard discipline. `held` tells
whether the guard is held; the result is `none` as soon as a `sem_wait` comes while the guard
is held, or a `send` or a `sem_post` while it is not, and otherwise whether the guard is held
at the end. -/
def guardScan : Bool → List Op → Option Bool
  | held, [] => some held
  | held, Op.semWait :: ops => if held then none else guardScan true ops
  | held, Op.semPost :: ops => if held then guardScan false ops else none
  | held, Op.send _ :: ops => if held then guardScan true ops else none
  | held, Op.recv :: ops => guardScan held ops

/-- The discipline of the send guard over a run of operations that starts with the guard
free: every send is between an acquire and its release, and the guard is free again at the
end. -/
def Disciplined (ops : List Op) : Prop := guardScan false ops = some false

/-- The change of the guard's count over a run of operations: releases minus acquires. -/
def guardDelta (ops : List Op) : Int :=
  (ops.count Op.semPost : Int) - (ops.count Op.semWait : Int)

/-- The operations of a log that are on connection `c`. -/
def opsOn (c : ConnId) (log : List (ConnId × Op)) : List Op :=
  log.filterMap fun e => if e.1 = c then some e.2 else none

/-- A buffer with everything up to and including its first `>` removed. -/
def cutFirst (buf : Str) : Str := (buf.dropWhile fun ch => ch != '>').drop 1

/-- The number of characters a script delivers. -/
def bytes (script : Script) : Nat := (script.map fun e => e.2.length).sum

/-- A buffer that is empty or ends with `>`. -/
def Closed (buf : Str) : Prop := buf = [] ∨ buf.getLast? = some '>'

/-- What a stretch of the client's run may do to its state: it keeps `valid` and `nick`, and
appends to the log operations that respect the send guard. -/
def ClientStep (st st1 : ClientState) : Prop :=
  st1.valid = st.valid ∧ st1.nick = st.nick ∧
    ∃ ops, st1.log = st.log ++ ops ∧ Disciplined ops

/-! # Theorems -/

/-! ## Arithmetic of the conversions -/

theorem toInt_of_range {z : Int} (h0 : -2147483648 ≤ z) (h1 : z < 2147483648) :
    toInt z = z := by
  unfold toInt; omega

theorem toInt_npos : toInt (npos : Nat) = -1 := by
  unfold toInt npos; norm_num

theorem toSizeT_of_nonneg {z : Int} (h0 : 0 ≤ z) (h1 : z < 18446744073709551616) :
    toSizeT z = z.toNat := by
  unfold toSizeT; rw [Int.emod_eq_of_lt h0 h1]

/-! ## Positions reported by `find` -/

theorem find_of_not_mem {s : Str} {c : Char} (h : c ∉ s) : find s c = npos := by
  simp [find, h]

theorem find_of_mem {s : Str} {c : Char} (h : c ∈ s) : find s c = s.indexOf c := by
  simp [find, h]

theorem idx_ge (s : Str) (c : Char) : -1 ≤ idx s c := by
  unfold idx; split <;> omega

theorem idx_lt (s : Str) (c : Char) : idx s c < s.length := by
  unfold idx; split
  · rename_i h; exact_mod_cast List.indexOf_lt_length.mpr h
  · omega

theorem toInt_find (s : Str) (c : Char) (h : idx s c < 2147483648) :
    toInt (find s c) = idx s c := by
  by_cases hm : c ∈ s
  · have e : idx s c = (s.indexOf c : Int) := by simp [idx, hm]
    rw [find_of_mem hm, e]; rw [e] at h; exact toInt_of_range (by omega) h
  · have e : idx s c = -1 := by simp [idx, hm]
    rw [find_of_not_mem hm, e]; exact toInt_npos

theorem idx_append_cons (p s : Str) (c : Char) (h : c ∉ p) :
    idx (p ++ c :: s) c = p.length := by
  have hm : c ∈ p ++ c :: s := by simp
  simp only [idx, hm, if_true]
  rw [List.indexOf_append_of_not_mem h, List.indexOf_cons_self]; rfl

theorem idx_of_not_mem {s : Str} {c : Char} (h : c ∉ s) : idx s c = -1 := by
  simp [idx, h]

theorem substr_of_le {s : Str} {pos count : Nat} (h : pos ≤ s.length) :
    substr s pos count = .ok ((s.drop pos).take count) := by
  simp [substr, h]

/-! ## The frame codec -/

/-- Closed form of `parseCommand` on a buffer whose positions fit in an `int`. -/
theorem parseCommand_eq (buf : Str) (h : buf.length < 2147483648) :
    parseCommand buf = .ok
      { ret := decide ((buf.drop (idx buf '>' + 1).toNat).length > 0)
        command := buf.drop (idx buf '>' + 1).toNat
        commandName :=
          (buf.drop (idx buf '<' + 1).toNat).take (toSizeT (toInt (idx buf ':' - 1)))
        arguments := (buf.drop (idx buf ':' + 1).toNat).take
          (toSizeT (toInt (idx buf '>' - idx buf ':' - 1))) } := by
  have g1 := idx_ge buf '<'
  have g2 := idx_ge buf ':'
  have g3 := idx_ge buf '>'
  have l1 := idx_lt buf '<'
  have l2 := idx_lt buf ':'
  have l3 := idx_lt buf '>'
  have e1 : toSizeT (toInt (idx buf '<' + 1)) = (idx buf '<' + 1).toNat := by
    rw [toInt_of_range (by omega) (by omega), toSizeT_of_nonneg (by omega) (by omega)]
  have e2 : toSizeT (toInt (idx buf ':' + 1)) = (idx buf ':' + 1).toNat := by
    rw [toInt_of_range (by omega) (by omega), toSizeT_of_nonneg (by omega) (by omega)]
  have e3 : toSizeT (toInt (idx buf '>' + 1)) = (idx buf '>' + 1).toNat := by
    rw [toInt_of_range (by omega) (by omega), toSizeT_of_nonneg (by omega) (by omega)]
  have e4 : toSizeT ((buf.length : Int) - idx buf '>' + 1)
      = ((buf.length : Int) - idx buf '>' + 1).toNat := by
    rw [toSizeT_of_nonneg (by omega) (by omega)]
  have t : (buf.drop (idx buf '>' + 1).toNat).take ((buf.length : Int) - idx buf '>' + 1).toNat
      = buf.drop (idx buf '>' + 1).toNat := by
    apply List.take_of_length_le
    rw [List.length_drop]; omega
  unfold parseCommand
  rw [toInt_find buf '<' (by omega), toInt_find buf ':' (by omega),
    toInt_find buf '>' (by omega)]
  simp only [e1, e2, e3, e4]
  rw [substr_of_le (by omega), substr_of_le (by omega), substr_of_le (by omega), t]
  rfl

theorem formatCommand_append (c a r : Str) : formatCommand c a ++ r = framed [] c a r := by
  simp [formatCommand, framed]

theorem formatCommand_eq_framed (c a : Str) : formatCommand c a = framed [] c a [] := by
  simp [formatCommand, framed]

theorem framed_length (p c a r : Str) :
    (framed p c a r).length = p.length + c.length + a.length + r.length + 3 := by
  simp [framed]; omega

/-- What `parseCommand` does on a frame preceded by bytes without delimiters. -/
theorem parseCommand_framed (p c a r : Str)
    (hp1 : '<' ∉ p) (hp2 : ':' ∉ p) (hp3 : '>' ∉ p)
    (hc2 : ':' ∉ c) (hc3 : '>' ∉ c) (ha3 : '>' ∉ a)
    (hlen : (framed p c a r).length < 2147483648) :
    parseCommand (framed p c a r) = .ok
      { ret := decide (r.length > 0)
        command := r
        commandName := (c ++ ':' :: (a ++ '>' :: r)).take (p.length + c.length)
        arguments := a } := by
  have i1 : idx (framed p c a r) '<' = p.length := idx_append_cons p _ '<' hp1
  have i2 : idx (framed p c a r) ':' = (p ++ '<' :: c).length := by
    have e : framed p c a r = (p ++ '<' :: c) ++ ':' :: (a ++ '>' :: r) := by simp [framed]
    rw [e]; apply idx_append_cons
    simp [hp2, hc2]
  have i3 : idx (framed p c a r) '>' = (p ++ '<' :: (c ++ ':' :: a)).length := by
    have e : framed p c a r = (p ++ '<' :: (c ++ ':' :: a)) ++ '>' :: r := by simp [framed]
    rw [e]; apply idx_append_cons
    simp [hp3, hc3, ha3]
  have hl := framed_length p c a r
  rw [parseCommand_eq _ hlen, i1, i2, i3]
  simp only [List.length_append, List.length_cons] at *
  have d1 : ((p.length : Int) + 1).toNat = p.length + 1 := by omega
  have d2 : (((p.length + (c.length + 1) : Nat) : Int) + 1).toNat
      = p.length + (c.length + 2) := by omega
  have d3 : (((p.length + (c.length + (a.length + 1) + 1) : Nat) : Int) + 1).toNat
      = p.length + (c.length + (a.length + 3)) := by omega
  have c1 : toSizeT (toInt (((p.length + (c.length + 1) : Nat) : Int) - 1))
      = p.length + c.length := by
    rw [toInt_of_range (by omega) (by omega), toSizeT_of_nonneg (by omega) (by omega)]; omega
  have c2 : toSizeT (toInt (((p.length + (c.length + (a.length + 1) + 1) : Nat) : Int)
      - ((p.length + (c.length + 1) : Nat) : Int) - 1)) = a.length := by
    rw [toInt_of_range (by omega) (by omega), toSizeT_of_nonneg (by omega) (by omega)]; omega
  rw [d1, d2, d3, c1, c2]
  have x1 : List.drop (p.length + 1) (framed p c a r) = c ++ ':' :: (a ++ '>' :: r) := by
    have e : framed p c a r = (p ++ ['<']) ++ (c ++ ':' :: (a ++ '>' :: r)) := by simp [framed]
    rw [e]; exact List.drop_left' (by simp)
  have x2 : List.drop (p.length + (c.length + 2)) (framed p c a r) = a ++ '>' :: r := by
    have e : framed p c a r = (p ++ '<' :: (c ++ [':'])) ++ (a ++ '>' :: r) := by simp [framed]
    rw [e]; exact List.drop_left' (by simp)
  have x3 : List.drop (p.length + (c.length + (a.length + 3))) (framed p c a r) = r := by
    have e : framed p c a r = (p ++ '<' :: (c ++ ':' :: (a ++ ['>']))) ++ r := by simp [framed]
    rw [e]; exact List.drop_left' (by simp; omega)
  rw [x1, x2, x3, List.take_left]

/-- C1, as stated, fails: a command that contains `:` does not survive the round trip. The
frame built from command `a:b` and arguments `c` (which has no delimiter) is parsed as command
`a` with arguments `b:c`. -/
theorem roundtrip_colon_in_command_counterexample :
    '<' ∉ "c".toList ∧ ':' ∉ "c".toList ∧ '>' ∉ "c".toList ∧
    parseCommand (formatCommand "a:b".toList "c".toList)
      = .ok ⟨false, [], "a".toList, "b:c".toList⟩ ∧
    "a".toList ≠ "a:b".toList := by
  decide

/-- C1 (amended): for every command without `:` and `>` and every arguments string without
`<`, `:` and `>`, when the frame is shorter than 2^31 characters, `parseCommand` on
`formatCommand command arguments` returns normally with `commandName = command` and
`arguments` equal to the original arguments. -/
theorem parseCommand_formatCommand_roundtrip (command arguments : Str)
    (hc2 : ':' ∉ command) (hc3 : '>' ∉ command)
    (_ha1 : '<' ∉ arguments) (_ha2 : ':' ∉ arguments) (ha3 : '>' ∉ arguments)
    (hlen : (formatCommand command arguments).length < 2147483648) :
    ∃ res, parseCommand (formatCommand command arguments) = .ok res ∧
      res.commandName = command ∧ res.arguments = arguments := by
  rw [formatCommand_eq_framed] at *
  refine ⟨_, parseCommand_framed [] command arguments [] (by simp) (by simp) (by simp)
    hc2 hc3 ha3 hlen, ?_, rfl⟩
  simp

/-- C1 (amended) at the frame `<addtile:3 4 0>`. -/
theorem parseCommand_formatCommand_roundtrip_witness :
    ∃ res, parseCommand (formatCommand "addtile".toList "3 4 0".toList) = .ok res ∧
      res.commandName = "addtile".toList ∧ res.arguments = "3 4 0".toList :=
  parseCommand_formatCommand_roundtrip "addtile".toList "3 4 0".toList
    (by decide) (by decide) (by decide) (by decide) (by decide) (by decide)

/-- C4, as stated, fails. With the bytes `ab` in front of the frame `<c:d>` the returned
`commandName` is `c:d`, not `c`; and in `<a>b:c>`, where a `>` stands before the `:`, the
returned `arguments` is `c>`, not the text `c` between the `:` and the first `>` after it. -/
theorem parseCommand_scan_counterexample :
    ('<' ∉ "ab".toList ∧ ':' ∉ "c".toList ∧ '>' ∉ "d".toList ∧
      parseCommand (framed "ab".toList "c".toList "d".toList [])
        = .ok ⟨false, [], "c:d".toList, "d".toList⟩ ∧ "c:d".toList ≠ "c".toList) ∧
    ('<' ∉ ([] : Str) ∧ ':' ∉ "a>b".toList ∧ '>' ∉ "c".toList ∧
      parseCommand (framed [] "a>b".toList "c".toList [])
        = .ok ⟨true, "b:c>".toList, "a>b".toList, "c>".toList⟩ ∧ "c>".toList ≠ "c".toList) := by
  decide

/-- C4 (amended): take a buffer shorter than 2^31 characters whose first `<` is preceded only
by bytes `p` other than `<`, `:` and `>`, with the first `:` after that `<` and the first `>`
after that `:`, and no `>` between the `<` and the `:`. Then `parseCommand` returns as
`arguments` the text strictly between that `:` and that `>`, whatever the bytes `p` are, and,
when the buffer starts with the `<`, as `commandName` the text strictly between the `<` and the
`:`. -/
theorem parseCommand_scan (p c a r : Str)
    (hp1 : '<' ∉ p) (hp2 : ':' ∉ p) (hp3 : '>' ∉ p)
    (hc2 : ':' ∉ c) (hc3 : '>' ∉ c) (ha3 : '>' ∉ a)
    (hlen : (framed p c a r).length < 2147483648) :
    ∃ res, parseCommand (framed p c a r) = .ok res ∧
      res.arguments = a ∧ (p = [] → res.commandName = c) := by
  refine ⟨_, parseCommand_framed p c a r hp1 hp2 hp3 hc2 hc3 ha3 hlen, rfl, ?_⟩
  intro hp
  simp [hp]

/-- C4 (amended) at a `newturn` frame behind a line break and a blank, before the bytes
`<x`. -/
theorem parseCommand_scan_witness :
    ∃ res, parseCommand (framed "\n ".toList "newturn".toList "12".toList "<x".toList)
        = .ok res ∧
      res.arguments = "12".toList ∧ ("\n ".toList = [] → res.commandName = "newturn".toList) :=
  parseCommand_scan "\n ".toList "newturn".toList "12".toList "<x".toList
    (by decide) (by decide) (by decide) (by decide) (by decide) (by decide) (by decide)

/-- C5, as stated, fails: the buffer `<ab>` has no `:` and the buffer `ab:c>` has no `<`, yet
`parseCommand` empties both. -/
theorem parseCommand_missing_marker_counterexample :
    (':' ∉ "<ab>".toList ∧
      parseCommand "<ab>".toList = .ok ⟨false, [], "ab>".toList, "<ab".toList⟩ ∧
      ([] : Str) ≠ "<ab>".toList) ∧
    ('<' ∉ "ab:c>".toList ∧
      parseCommand "ab:c>".toList = .ok ⟨false, [], "a".toList, "c".toList⟩ ∧
      ([] : Str) ≠ "ab:c>".toList) := by
  decide

/-- C5 (amended): for every buffer shorter than 2^31 characters that contains no `>`,
`parseCommand` returns normally and leaves the buffer equal to what it was before the
call. -/
theorem parseCommand_no_close_keeps_buffer (buf : Str) (h : '>' ∉ buf)
    (hlen : buf.length < 2147483648) :
    ∃ res, parseCommand buf = .ok res ∧ res.command = buf := by
  refine ⟨_, parseCommand_eq buf hlen, ?_⟩
  simp [idx_of_not_mem h]

/-- C5 (amended) at the unfinished frame `<chat:bob:hel`. -/
theorem parseCommand_no_close_keeps_buffer_witness :
    ∃ res, parseCommand "<chat:bob:hel".toList = .ok res ∧ res.command = "<chat:bob:hel".toList :=
  parseCommand_no_close_keeps_buffer "<chat:bob:hel".toList (by decide) (by decide)

/-- C6: for every command `c` without `:` and `>`, every arguments string `a` without `>` and
every string `r`, the buffer `formatCommand c a ++ r` being shorter than 2^31 characters,
`parseCommand` returns normally with `commandName = c` and `arguments = a`, leaves the buffer
equal to `r`, and returns true exactly when `r` is non-empty. -/
theorem parseCommand_pipelined (c a r : Str)
    (hc2 : ':' ∉ c) (hc3 : '>' ∉ c) (ha3 : '>' ∉ a)
    (hlen : (formatCommand c a ++ r).length < 2147483648) :
    parseCommand (formatCommand c a ++ r) = .ok
      { ret := decide (r ≠ []), command := r, commandName := c, arguments := a } := by
  rw [formatCommand_append] at *
  rw [parseCommand_framed [] c a r (by simp) (by simp) (by simp) hc2 hc3 ha3 hlen]
  simp [List.length_pos]

/-- C6 at the frame `<newmap:>` followed by the bytes `<newturn:5><add`. -/
theorem parseCommand_pipelined_witness :
    parseCommand (formatCommand "newmap".toList [] ++ "<newturn:5><add".toList) = .ok
      { ret := decide ("<newturn:5><add".toList ≠ []), command := "<newturn:5><add".toList,
        commandName := "newmap".toList, arguments := [] } :=
  parseCommand_pipelined "newmap".toList [] "<newturn:5><add".toList
    (by decide) (by decide) (by decide) (by decide)

/-! ## The client receive loop -/

/-- C2 (defect in the code): with two frames `<newmap:><newturn:5>` in the accumulated buffer
the do-while loop runs its body on `newmap` only, and with three frames `<a:1><b:2><c:3>` on
the first two only: the last frame of a buffer that holds more than one frame is parsed but
never dispatched. -/
theorem drain_drops_last_frame :
    (processBuffer 8 (freshClient "me".toList)
        (formatCommand "newmap".toList [] ++ formatCommand "newturn".toList "5".toList)).map
      ClientState.dispatched = .ok [("newmap".toList, [])] ∧
    (processBuffer 8 (freshClient "me".toList)
        (formatCommand "a".toList "1".toList ++ formatCommand "b".toList "2".toList
          ++ formatCommand "c".toList "3".toList)).map
      ClientState.dispatched = .ok [("a".toList, "1".toList), ("b".toList, "2".toList)] := by
  decide

/-- C3 (defect in the code): the frames `<a:1>` and `<b:2>` are both dispatched when each
arrives in a receive of its own, but only `<a:1>` is dispatched when the two arrive in one
receive, or when the chunk boundary falls inside the second frame. -/
theorem chunking_changes_dispatch :
    (clientLoop 8 [(5, "<a:1>".toList), (5, "<b:2>".toList)] (freshClient "me".toList)).map
      ClientState.dispatched = .ok [("a".toList, "1".toList), ("b".toList, "2".toList)] ∧
    (clientLoop 8 [(10, "<a:1><b:2>".toList)] (freshClient "me".toList)).map
      ClientState.dispatched = .ok [("a".toList, "1".toList)] ∧
    (clientLoop 8 [(7, "<a:1><b".toList), (3, ":2>".toList)] (freshClient "me".toList)).map
      ClientState.dispatched = .ok [("a".toList, "1".toList)] := by
  decide

/-! ## The server threads -/

theorem recv_snd (script : Script) : (recv script).2 = script.drop 1 := by
  cases script <;> rfl

theorem sendItems_eq (c : ConnId) (command : Str) (items : List Str) (st : ServerState)
    (script : Script) :
    sendItems c command items st script
      = ({ st with log := st.log ++ (snapshotItems command items).map (Prod.mk c) },
          script.drop items.length) := by
  induction items generalizing st script with
  | nil => simp [sendItems, snapshotItems]
  | cons item items ih =>
    rw [sendItems, ih, recv_snd]
    simp [ServerState.op, snapshotItems, Nat.add_comm]

theorem snapshotItems_count_send (command : Str) (items : List Str) :
    (snapshotItems command items).countP Op.isSend = items.length := by
  induction items with
  | nil => rfl
  | cons item items ih =>
    simp only [snapshotItems, List.flatMap_cons] at *
    rw [List.countP_append, ih]
    simp [Op.isSend, List.countP_cons]; omega

theorem snapshotItems_count_recv (command : Str) (items : List Str) :
    (snapshotItems command items).countP Op.isRecv = items.length := by
  induction items with
  | nil => rfl
  | cons item items ih =>
    simp only [snapshotItems, List.flatMap_cons] at *
    rw [List.countP_append, ih]
    simp [Op.isRecv, List.countP_cons]; omega

theorem helloBranch_eq (c : ConnId) (arguments : Str) (st : ServerState) (script : Script)
    (r : ParseResult) (hr : parseCommand (recv script).1.2 = .ok r) :
    helloBranch c arguments st script = .ok
      ({ st with
          chatMessages := st.chatMessages ++
            [⟨"SERVER_INFORMATION".toList, "Client connect with version: ".toList ++ arguments⟩,
              ⟨"SERVER_INFORMATION".toList, "Client nick is: ".toList ++ r.arguments⟩]
          log := st.log ++ ((Op.semWait :: helloTransfers st.gameMap) ++ [Op.semPost]).map
            (Prod.mk c) },
        r.arguments,
        script.drop (1 + st.gameMap.tiles.length + st.gameMap.classDescriptions.length
          + st.gameMap.creatures.length)) := by
  unfold helloBranch
  simp only [hr, sendItems_eq, recv_snd]
  simp [bind, Except.bind, pure, Except.pure, ServerState.op, ServerState.chat, helloTransfers,
    Nat.add_comm, Nat.add_left_comm, Nat.add_assoc]

theorem toUInt_ne_npos (z : Int) : toUInt z ≠ npos := by
  unfold toUInt npos; omega

theorem sentTo_append (c : ConnId) (a b : List (ConnId × Op)) :
    sentTo c (a ++ b) = sentTo c a ++ sentTo c b := by
  simp [sentTo, List.filterMap_append]

theorem sentTo_guardedOps (c : ConnId) (frame : Str) (l : List ConnId) :
    sentTo c (l.flatMap (guardedOps frame)) = List.replicate (l.count c) frame := by
  induction l with
  | nil => rfl
  | cons d l ih =>
    rw [List.flatMap_cons, sentTo_append, ih, List.count_cons]
    by_cases h : d = c
    · subst h
      simp [sentTo, guardedOps, List.replicate_succ]
    · simp [sentTo, guardedOps, h]

theorem sentTo_broadcast (c : ConnId) (l : List ConnId) (hnd : l.Nodup) (hc : c ∈ l)
    (events : List ServerNotification) (g : ServerNotification → Str) :
    sentTo c (events.flatMap fun e => l.flatMap (guardedOps (g e))) = events.map g := by
  induction events with
  | nil => rfl
  | cons e es ih =>
    rw [List.flatMap_cons, sentTo_append, ih, sentTo_guardedOps,
      List.count_eq_one_of_mem hnd hc]
    rfl

theorem foldl_guarded (frame : Str) (l : List ConnId) (st : ServerState) :
    l.foldl (fun s c => ((s.op c Op.semWait).op c (Op.send frame)).op c Op.semPost) st
      = { st with log := st.log ++ l.flatMap (guardedOps frame) } := by
  induction l generalizing st with
  | nil => simp
  | cons d l ih =>
    rw [List.foldl_cons, ih]
    simp [ServerState.op, guardedOps]

theorem sendToAllClients_eq (st : ServerState) (str : Str) :
    sendToAllClients st str
      = { st with log := st.log ++ st.clientSockets.flatMap (guardedOps str) } :=
  foldl_guarded str st.clientSockets st

theorem relay_eq (st : ServerState) (frame : Str) :
    relay st frame = { st with log := st.log ++ st.clientSockets.flatMap (guardedOps frame) } :=
  foldl_guarded frame st.clientSockets st

theorem enqueueAll_eq (events : List ServerNotification) (st : ServerState) :
    enqueueAll st events = { st with
      serverNotificationQueue := st.serverNotificationQueue ++ events.map some
      serverNotificationQueueSemaphore := st.serverNotificationQueueSemaphore + events.length } := by
  unfold enqueueAll
  induction events generalizing st with
  | nil => simp
  | cons e es ih =>
    rw [List.foldl_cons, ih]
    simp [enqueue, Nat.add_comm, Nat.add_left_comm]

theorem encodeNotification_congr (s t : ServerState) (e : ServerNotification)
    (h1 : s.turnNumber = t.turnNumber) (h2 : s.turnsPerSecond = t.turnsPerSecond) :
    encodeNotification s e = encodeNotification t e := by
  unfold encodeNotification
  rw [h1, h2]

theorem encodeNotification_handled (st : ServerState) (e : ServerNotification)
    (h : e.type ≠ NotificationType.other) :
    encodeNotification st e = some (frameOf st e) := by
  unfold frameOf encodeNotification
  cases ht : e.type <;> simp_all

theorem processor_drains (events : List ServerNotification) :
    ∀ (fuel : Nat) (st : ServerState),
      st.serverNotificationQueue = events.map some →
      st.serverNotificationQueueSemaphore = events.length →
      (∀ e ∈ events, e.type ≠ NotificationType.other) →
      events.length < fuel →
      serverNotificationProcessor fuel st = .ok { st with
        serverNotificationQueue := []
        serverNotificationQueueSemaphore := 0
        log := st.log ++ events.flatMap fun e =>
          st.clientSockets.flatMap (guardedOps (frameOf st e)) } := by
  induction events with
  | nil =>
    intro fuel st hq hs _ hf
    cases fuel with
    | zero => omega
    | succ fuel =>
      simp only [List.map_nil, List.length_nil] at hq hs
      simp [serverNotificationProcessor, hs, pure, Except.pure]
      cases st; simp_all
  | cons e es ih =>
    intro fuel st hq hs hk hf
    cases fuel with
    | zero => omega
    | succ fuel =>
      have he := hk e (by simp)
      simp only [List.map_cons, List.length_cons] at hq hs hf
      rw [serverNotificationProcessor]
      simp only [hs, hq, Nat.succ_ne_zero, if_false, Nat.add_sub_cancel]
      have henc : ∀ s : ServerState, s.turnNumber = st.turnNumber →
          s.turnsPerSecond = st.turnsPerSecond →
          encodeNotification s e = some (frameOf st e) := fun s h1 h2 => by
        rw [encodeNotification_congr s st e h1 h2]; exact encodeNotification_handled st e he
      have h2 := henc { st with serverNotificationQueue := List.map some es,
                                serverNotificationQueueSemaphore := es.length } rfl rfl
      simp only [h2]
      rw [ih fuel _ (by simp [sendToAllClients_eq]) (by simp [sendToAllClients_eq])
        (fun x hx => hk x (by simp [hx])) (by omega)]
      have hfr : ∀ (s : ServerState) (x : ServerNotification), s.turnNumber = st.turnNumber →
          s.turnsPerSecond = st.turnsPerSecond → frameOf s x = frameOf st x := fun s x h1 h2 => by
        unfold frameOf; rw [encodeNotification_congr s st x h1 h2]
      simp [sendToAllClients_eq, hfr]

/-- C8: after non-null events of handled kinds have been appended to an empty notification
queue and the broadcaster has drained it, the frames sent to a connection `c` of the registry
(whose entries are distinct) are the frames sent before followed by the events' encoded
frames in enqueue order; the list does not depend on `c`. -/
theorem broadcast_order (st : ServerState) (events : List ServerNotification)
    (fuel : Nat) (c : ConnId)
    (hq : st.serverNotificationQueue = []) (hs : st.serverNotificationQueueSemaphore = 0)
    (hk : ∀ e ∈ events, e.type ≠ NotificationType.other)
    (hnd : st.clientSockets.Nodup) (hc : c ∈ st.clientSockets)
    (hf : events.length < fuel) :
    ∃ st1, serverNotificationProcessor fuel (enqueueAll st events) = .ok st1 ∧
      st1.serverNotificationQueue = [] ∧
      st1.clientSockets = st.clientSockets ∧
      (∀ e ∈ events, encodeNotification st e = some (frameOf st e)) ∧
      sentTo c st1.log = sentTo c st.log ++ events.map (frameOf st) := by
  refine ⟨_, processor_drains events fuel (enqueueAll st events)
    (by simp [enqueueAll_eq, hq]) (by simp [enqueueAll_eq, hs]) hk hf, rfl, ?_,
    fun e he => encodeNotification_handled st e (hk e he), ?_⟩
  · simp [enqueueAll_eq]
  · have hfr : ∀ x : ServerNotification, frameOf (enqueueAll st events) x = frameOf st x :=
      fun x => by
        unfold frameOf
        rw [encodeNotification_congr (enqueueAll st events) st x (by simp [enqueueAll_eq])
          (by simp [enqueueAll_eq])]
    have hcl : (enqueueAll st events).clientSockets = st.clientSockets := by
      simp [enqueueAll_eq]
    have hlog : (enqueueAll st events).log = st.log := by simp [enqueueAll_eq]
    simp only [sentTo_append, hcl, hlog, hfr]
    rw [sentTo_broadcast c _ hnd hc]

/-- C8 in the scenario, for three events and connection `2`. -/
theorem broadcast_order_witness :
    ∃ st1, serverNotificationProcessor 4 (enqueueAll scenarioServer
        [scenarioEvent .turnStarted, scenarioEvent .tileFullnessChange,
          scenarioEvent .creatureSetAnimationState]) = .ok st1 ∧
      st1.serverNotificationQueue = [] ∧
      st1.clientSockets = scenarioServer.clientSockets ∧
      (∀ e ∈ [scenarioEvent .turnStarted, scenarioEvent .tileFullnessChange,
          scenarioEvent .creatureSetAnimationState],
        encodeNotification scenarioServer e = some (frameOf scenarioServer e)) ∧
      sentTo 2 st1.log = sentTo 2 scenarioServer.log ++
        [scenarioEvent .turnStarted, scenarioEvent .tileFullnessChange,
          scenarioEvent .creatureSetAnimationState].map (frameOf scenarioServer) :=
  broadcast_order scenarioServer
    [scenarioEvent .turnStarted, scenarioEvent .tileFullnessChange,
      scenarioEvent .creatureSetAnimationState] 4 2
    (by decide) (by decide) (by decide) (by decide) (by decide) (by decide)

theorem processChatMessage_eq (arguments : Str) (h : arguments.length < 2147483648) :
    processChatMessage arguments = .ok
      { clientNick := arguments.take (toSizeT (idx arguments ':'))
        message := (arguments.drop (idx arguments ':' + 1).toNat).take
          (toSizeT ((arguments.length : Int) - idx arguments ':' - 1)) } := by
  have g := idx_ge arguments ':'
  have l := idx_lt arguments ':'
  have e : toSizeT (toInt (idx arguments ':' + 1)) = (idx arguments ':' + 1).toNat := by
    rw [toInt_of_range (by omega) (by omega), toSizeT_of_nonneg (by omega) (by omega)]
  unfold processChatMessage
  rw [toInt_find arguments ':' (by omega)]
  simp only [e]
  rw [substr_of_le (by omega), substr_of_le (by omega)]
  rfl

theorem transfers_append (c : ConnId) (a b : List (ConnId × Op)) :
    transfers c (a ++ b) = transfers c a ++ transfers c b := by
  simp [transfers, List.filterMap_append]

theorem transfers_map_mk (c : ConnId) (ops : List Op) :
    transfers c (ops.map (Prod.mk c)) = ops.filter fun o => o.isSend || o.isRecv := by
  induction ops with
  | nil => rfl
  | cons o ops ih =>
    have h := ih
    unfold transfers at h ⊢
    rw [List.map_cons, List.filterMap_cons, h]
    cases o <;> simp [Op.isSend, Op.isRecv]

theorem snapshotItems_transfers (command : Str) (items : List Str) :
    (snapshotItems command items).filter (fun o => o.isSend || o.isRecv)
      = snapshotItems command items := by
  rw [List.filter_eq_self]
  intro o ho
  simp only [snapshotItems, List.mem_flatMap] at ho
  obtain ⟨_, _, ho⟩ := ho
  simp at ho
  rcases ho with rfl | rfl <;> rfl

theorem helloTransfers_filter (g : GameMap) :
    (helloTransfers g).filter (fun o => o.isSend || o.isRecv) = helloTransfers g := by
  unfold helloTransfers
  simp only [List.filter_append, snapshotItems_transfers]
  rfl

theorem handlerIteration_cons (curSock : ConnId) (clientNick : Str) (st : ServerState)
    (charsRead : Int) (packet : Str) (rest : Script) :
    handlerIteration curSock clientNick st ((charsRead, packet) :: rest) =
      if charsRead ≤ 0 then
        .ok (Flow.done,
          (st.op curSock Op.recv).chat "SERVER_INFORMATION".toList
            ("Client disconnect: ".toList ++ clientNick),
          clientNick, rest)
      else if toUInt (find packet ':') = npos then
        .ok (Flow.next, st.op curSock Op.recv, clientNick, rest)
      else
        (parseCommand packet).bind fun r =>
          if r.commandName = "hello".toList then
            (helloBranch curSock r.arguments (st.op curSock Op.recv) rest).bind
              fun x => .ok (Flow.next, x)
          else if r.commandName = "chat".toList then
            (chatBranch r.arguments (st.op curSock Op.recv)).bind
              fun s => .ok (Flow.next, s, clientNick, rest)
          else .ok (Flow.next, st.op curSock Op.recv, clientNick, rest) := by
  rfl

/-- C7: when the session handler receives a packet that parses to the command `hello` (the
reply to `picknick` being shorter than 2^31 characters), the iteration ends normally and the
sends and receives it performs on its connection are, after the receive that delivered the
packet, exactly `helloTransfers`: send `picknick`, one receive, send `newmap`, then per tile
(send `addtile`, one receive), per class description (send `addclass`, one receive), per
creature (send `addcreature`, one receive); these are 2+T+C+K sends and 1+T+C+K receives. -/
theorem hello_snapshot_sequence (curSock : ConnId) (clientNick : Str) (st : ServerState)
    (charsRead : Int) (packet : Str) (rest : Script) (r : ParseResult)
    (hread : 0 < charsRead) (hparse : parseCommand packet = .ok r)
    (hcmd : r.commandName = "hello".toList)
    (hreply : (recv rest).1.2.length < 2147483648) :
    ∃ st1 nick1 rest1,
      handlerIteration curSock clientNick st ((charsRead, packet) :: rest)
        = .ok (Flow.next, st1, nick1, rest1) ∧
      transfers curSock st1.log
        = transfers curSock st.log ++ Op.recv :: helloTransfers st.gameMap ∧
      helloTransfers st.gameMap
        = [Op.send (formatCommand "picknick".toList []), Op.recv,
            Op.send (formatCommand "newmap".toList [])]
          ++ (st.gameMap.tiles.flatMap fun t =>
                [Op.send (formatCommand "addtile".toList t.text), Op.recv])
          ++ (st.gameMap.classDescriptions.flatMap fun d =>
                [Op.send (formatCommand "addclass".toList (classText d)), Op.recv])
          ++ (st.gameMap.creatures.flatMap fun k =>
                [Op.send (formatCommand "addcreature".toList k.text), Op.recv]) ∧
      (helloTransfers st.gameMap).countP Op.isSend
        = 2 + st.gameMap.tiles.length + st.gameMap.classDescriptions.length
            + st.gameMap.creatures.length ∧
      (helloTransfers st.gameMap).countP Op.isRecv
        = 1 + st.gameMap.tiles.length + st.gameMap.classDescriptions.length
            + st.gameMap.creatures.length := by
  obtain ⟨r2, hr2⟩ : ∃ r2, parseCommand (recv rest).1.2 = .ok r2 :=
    ⟨_, parseCommand_eq _ hreply⟩
  have hit : handlerIteration curSock clientNick st ((charsRead, packet) :: rest)
      = (helloBranch curSock r.arguments (st.op curSock Op.recv) rest).bind
          fun x => .ok (Flow.next, x) := by
    rw [handlerIteration_cons, if_neg (not_le.mpr hread), if_neg (toUInt_ne_npos _), hparse]
    show (if r.commandName = "hello".toList then _ else _) = _
    rw [if_pos hcmd]
  rw [hit, helloBranch_eq curSock r.arguments (st.op curSock Op.recv) rest r2 hr2]
  refine ⟨_, _, _, rfl, ?_, ?_, ?_, ?_⟩
  · simp only [ServerState.op, List.append_assoc, transfers_append]
    have h1 : transfers curSock [(curSock, Op.recv)] = [Op.recv] := by simp [transfers]
    have h2 := transfers_map_mk curSock ((Op.semWait :: helloTransfers st.gameMap) ++ [Op.semPost])
    have h3 : (Op.semWait :: helloTransfers st.gameMap ++ [Op.semPost]).filter
        (fun o => o.isSend || o.isRecv) = helloTransfers st.gameMap := by
      simp only [List.filter_cons, List.filter_append, helloTransfers_filter]
      simp [Op.isSend, Op.isRecv]
    rw [h1, h2, h3]
    rfl
  · simp [helloTransfers, snapshotItems, List.flatMap_map]
  · simp [helloTransfers, List.countP_append, snapshotItems_count_send, List.countP_cons,
      Op.isSend]
    omega
  · simp [helloTransfers, List.countP_append, snapshotItems_count_recv, List.countP_cons,
      Op.isRecv]
    omega

/-- C7 in the scenario: three tiles, one class description, two creatures. -/
theorem hello_snapshot_sequence_witness :
    ∃ st1 nick1 rest1,
      handlerIteration 1 "UNSET_CLIENT_NICKNAME".toList scenarioServer
          ((18, "<hello:TestClient>".toList) :: scenarioReplies)
        = .ok (Flow.next, st1, nick1, rest1) ∧
      transfers 1 st1.log
        = transfers 1 scenarioServer.log ++ Op.recv :: helloTransfers scenarioServer.gameMap ∧
      helloTransfers scenarioServer.gameMap
        = [Op.send (formatCommand "picknick".toList []), Op.recv,
            Op.send (formatCommand "newmap".toList [])]
          ++ (scenarioServer.gameMap.tiles.flatMap fun t =>
                [Op.send (formatCommand "addtile".toList t.text), Op.recv])
          ++ (scenarioServer.gameMap.classDescriptions.flatMap fun d =>
                [Op.send (formatCommand "addclass".toList (classText d)), Op.recv])
          ++ (scenarioServer.gameMap.creatures.flatMap fun k =>
                [Op.send (formatCommand "addcreature".toList k.text), Op.recv]) ∧
      (helloTransfers scenarioServer.gameMap).countP Op.isSend
        = 2 + scenarioServer.gameMap.tiles.length
            + scenarioServer.gameMap.classDescriptions.length
            + scenarioServer.gameMap.creatures.length ∧
      (helloTransfers scenarioServer.gameMap).countP Op.isRecv
        = 1 + scenarioServer.gameMap.tiles.length
            + scenarioServer.gameMap.classDescriptions.length
            + scenarioServer.gameMap.creatures.length :=
  hello_snapshot_sequence 1 "UNSET_CLIENT_NICKNAME".toList scenarioServer 18
    "<hello:TestClient>".toList scenarioReplies ⟨false, [], "hello".toList, "TestClient".toList⟩
    (by decide) (by decide) (by decide) (by decide)

/-- C9, as stated, fails: the handler of connection `1`, which is in the registry, relays the
chat frame to connection `1` itself. -/
theorem chat_relay_reaches_sender :
    (1 : ConnId) ∈ scenarioServer.clientSockets ∧
    (handlerIteration 1 "Bob".toList scenarioServer [(13, "<chat:Bob:hi>".toList)]).map
      (fun x => sentTo 1 x.2.1.log) = .ok ["<chat:Bob:hi>".toList] := by
  decide

theorem chatBranch_eq (arguments : Str) (st : ServerState) (msg : ChatMessage)
    (h : processChatMessage arguments = .ok msg) :
    chatBranch arguments st = .ok { st with
      log := st.log ++ st.clientSockets.flatMap
        (guardedOps (formatCommand "chat".toList (msg.clientNick ++ ":".toList ++ msg.message)))
      chatMessages := st.chatMessages ++ [msg] } := by
  unfold chatBranch
  rw [h]
  simp only [relay_eq]
  rfl

/-- C9 (amended): when a session handler processes a `chat` frame (arguments shorter than
2^31 characters, registry entries distinct), the relayed chat frame is sent exactly once to
every connection in the client registry, the sender's own connection included, and to no
other connection; the message is then appended to the server's chat log and the registry is
unchanged. -/
theorem chat_relay_recipients (curSock : ConnId) (clientNick : Str) (st : ServerState)
    (charsRead : Int) (packet : Str) (rest : Script) (r : ParseResult)
    (hread : 0 < charsRead) (hparse : parseCommand packet = .ok r)
    (hcmd : r.commandName = "chat".toList)
    (hlen : r.arguments.length < 2147483648) (hnd : st.clientSockets.Nodup) :
    ∃ msg st1, processChatMessage r.arguments = .ok msg ∧
      handlerIteration curSock clientNick st ((charsRead, packet) :: rest)
        = .ok (Flow.next, st1, clientNick, rest) ∧
      (∀ c ∈ st.clientSockets, sentTo c st1.log = sentTo c st.log ++
        [formatCommand "chat".toList (msg.clientNick ++ ":".toList ++ msg.message)]) ∧
      (∀ c, c ∉ st.clientSockets → sentTo c st1.log = sentTo c st.log) ∧
      st1.chatMessages = st.chatMessages ++ [msg] ∧
      st1.clientSockets = st.clientSockets := by
  have hne : ¬ r.commandName = "hello".toList := by rw [hcmd]; decide
  have hm := processChatMessage_eq r.arguments hlen
  have hit : handlerIteration curSock clientNick st ((charsRead, packet) :: rest)
      = (chatBranch r.arguments (st.op curSock Op.recv)).bind
          fun s => .ok (Flow.next, s, clientNick, rest) := by
    rw [handlerIteration_cons, if_neg (not_le.mpr hread), if_neg (toUInt_ne_npos _), hparse]
    show (if r.commandName = "hello".toList then _ else _) = _
    rw [if_neg hne, if_pos hcmd]
  rw [hit, chatBranch_eq r.arguments (st.op curSock Op.recv) _ hm]
  refine ⟨_, _, hm, rfl, ?_, ?_, ?_, ?_⟩
  · intro c hc
    simp only [ServerState.op, sentTo_append, sentTo_guardedOps,
      List.count_eq_one_of_mem hnd hc]
    simp [sentTo]
  · intro c hc
    simp only [ServerState.op, sentTo_append, sentTo_guardedOps,
      List.count_eq_zero_of_not_mem hc]
    simp [sentTo]
  · simp [ServerState.op]
  · simp [ServerState.op]

/-- C9 (amended) in the scenario, for the packet `<chat:Bob:hi>` on connection `1`. -/
theorem chat_relay_recipients_witness :
    ∃ msg st1, processChatMessage "Bob:hi".toList = .ok msg ∧
      handlerIteration 1 "Bob".toList scenarioServer [(13, "<chat:Bob:hi>".toList)]
        = .ok (Flow.next, st1, "Bob".toList, []) ∧
      (∀ c ∈ scenarioServer.clientSockets, sentTo c st1.log = sentTo c scenarioServer.log ++
        [formatCommand "chat".toList (msg.clientNick ++ ":".toList ++ msg.message)]) ∧
      (∀ c, c ∉ scenarioServer.clientSockets → sentTo c st1.log = sentTo c scenarioServer.log) ∧
      st1.chatMessages = scenarioServer.chatMessages ++ [msg] ∧
      st1.clientSockets = scenarioServer.clientSockets :=
  chat_relay_recipients 1 "Bob".toList scenarioServer 13 "<chat:Bob:hi>".toList []
    ⟨false, [], "chat".toList, "Bob:hi".toList⟩
    (by decide) (by decide) (by decide) (by decide) (by decide)

/-- C10 (defect in the code): the handler of connection `1` terminates when its receive
returns length `0` or `-1`, and afterwards the registry still is `[1, 2]`: the connection has
not been removed. -/
theorem disconnect_keeps_registry_entry :
    (1 : ConnId) ∈ scenarioServer.clientSockets ∧
    (clientHandlerThread 3 1 scenarioServer [(0, [])]).map ServerState.clientSockets
      = .ok [1, 2] ∧
    (clientHandlerThread 3 1 scenarioServer [(-1, [])]).map ServerState.clientSockets
      = .ok [1, 2] := by
  decide

/-! ## General behaviour behind the defects -/

theorem dispatch_ok (st : ClientState) (serverCommand arguments : Str)
    (h : arguments.length < 2147483648) :
    ∃ st1, dispatch st serverCommand arguments = .ok st1 ∧
      st1.dispatched = st.dispatched ++ [(serverCommand, arguments)] := by
  unfold dispatch
  rw [processChatMessage_eq arguments h]
  show ∃ st1, (if serverCommand = "picknick".toList then _ else _) = _ ∧ _
  by_cases c : serverCommand = "picknick".toList
  · rw [if_pos c]; exact ⟨_, rfl, rfl⟩
  rw [if_neg c]
  clear c
  by_cases c : serverCommand = "chat".toList
  · rw [if_pos c]; exact ⟨_, rfl, rfl⟩
  rw [if_neg c]
  clear c
  by_cases c : serverCommand = "newmap".toList
  · rw [if_pos c]; exact ⟨_, rfl, rfl⟩
  rw [if_neg c]
  clear c
  by_cases c : serverCommand = "turnsPerSecond".toList
  · rw [if_pos c]; exact ⟨_, rfl, rfl⟩
  rw [if_neg c]
  clear c
  by_cases c : serverCommand = "addtile".toList
  · rw [if_pos c]; exact ⟨_, rfl, rfl⟩
  rw [if_neg c]
  clear c
  by_cases c : serverCommand = "addclass".toList
  · rw [if_pos c]; exact ⟨_, rfl, rfl⟩
  rw [if_neg c]
  clear c
  by_cases c : serverCommand = "addcreature".toList
  · rw [if_pos c]; exact ⟨_, rfl, rfl⟩
  rw [if_neg c]
  clear c
  by_cases c : serverCommand = "newturn".toList
  · rw [if_pos c]; exact ⟨_, rfl, rfl⟩
  rw [if_neg c]
  clear c
  by_cases c : serverCommand = "creatureAddDestination".toList
  · rw [if_pos c]; exact ⟨_, rfl, rfl⟩
  rw [if_neg c]
  clear c
  by_cases c : serverCommand = "creatureSetAnimationState".toList
  · rw [if_pos c]; exact ⟨_, rfl, rfl⟩
  rw [if_neg c]
  clear c
  by_cases c : serverCommand = "tileFullnessChange".toList
  · rw [if_pos c]; exact ⟨_, rfl, rfl⟩
  rw [if_neg c]
  clear c
  exact ⟨_, rfl, rfl⟩

/-- The first frame of a buffer is split off and the rest of the buffer is kept. -/
theorem parseCommand_frame_rest (c a r : Str)
    (hc2 : ':' ∉ c) (hc3 : '>' ∉ c) (ha3 : '>' ∉ a)
    (hlen : (formatCommand c a ++ r).length < 2147483648) :
    parseCommand (formatCommand c a ++ r) = .ok
      { ret := decide (r ≠ []), command := r, commandName := c, arguments := a } := by
  rw [formatCommand_append] at *
  rw [parseCommand_framed [] c a r (by simp) (by simp) (by simp) hc2 hc3 ha3 hlen]
  simp [List.length_pos]

theorem encodeFrames_cons (f : Str × Str) (fs : List (Str × Str)) :
    encodeFrames (f :: fs) = formatCommand f.1 f.2 ++ encodeFrames fs := by
  simp [encodeFrames]

theorem encodeFrames_eq_nil (fs : List (Str × Str)) : encodeFrames fs = [] ↔ fs = [] := by
  cases fs with
  | nil => simp [encodeFrames]
  | cons f fs => simp [encodeFrames, formatCommand]

theorem drain_frames (frames : List (Str × Str)) :
    ∀ (fuel : Nat) (st : ClientState) (serverCommand arguments : Str),
      (∀ f ∈ frames, DelimiterFree f) →
      (encodeFrames frames).length < 2147483648 →
      arguments.length < 2147483648 →
      frames.length < fuel →
      ∃ st1, drain fuel st (encodeFrames frames) serverCommand arguments = .ok st1 ∧
        st1.dispatched = st.dispatched ++ (serverCommand, arguments) :: frames.dropLast := by
  induction frames with
  | nil =>
    intro fuel st serverCommand arguments _ _ ha hf
    cases fuel with
    | zero => omega
    | succ fuel =>
      obtain ⟨st1, h1, h2⟩ := dispatch_ok st serverCommand arguments ha
      refine ⟨st1, ?_, by simpa using h2⟩
      have hp : parseCommand (encodeFrames []) = .ok ⟨false, [], [], []⟩ := by decide
      rw [drain, h1, hp]
      rfl
  | cons f fs ih =>
    intro fuel st serverCommand arguments hw hl ha hf
    cases fuel with
    | zero => omega
    | succ fuel =>
      obtain ⟨st1, h1, h2⟩ := dispatch_ok st serverCommand arguments ha
      have hwf := hw f (by simp)
      rw [encodeFrames_cons] at hl
      have hp := parseCommand_frame_rest f.1 f.2 (encodeFrames fs) hwf.1.2.1 hwf.1.2.2
        hwf.2.2.2 hl
      have hl2 : (encodeFrames fs).length < 2147483648 := by
        simp only [List.length_append] at hl; omega
      have ha2 : f.2.length < 2147483648 := by
        simp only [List.length_append, formatCommand] at hl; omega
      rw [drain, h1, encodeFrames_cons, hp]
      cases fs with
      | nil =>
        refine ⟨st1, ?_, by simpa using h2⟩
        simp [encodeFrames, bind, Except.bind, pure, Except.pure]
      | cons g gs =>
        obtain ⟨st2, h3, h4⟩ := ih fuel st1 f.1 f.2 (fun x hx => hw x (by simp [hx])) hl2 ha2
          (by simp at hf ⊢; omega)
        refine ⟨st2, ?_, ?_⟩
        · have hne : encodeFrames (g :: gs) ≠ [] := by
            rw [Ne, encodeFrames_eq_nil]; simp
          simp only [bind, Except.bind, hne, ne_eq, not_false_eq_true, decide_True, if_true]
          exact h3
        · rw [h4, h2]; simp [List.dropLast]

/-- What the client does with a buffer of `k >= 1` delimiter-free frames: it dispatches the
only frame when `k = 1`, and all frames but the last one when `k >= 2`. -/
theorem processBuffer_frames (fuel : Nat) (st : ClientState) (f : Str × Str)
    (fs : List (Str × Str))
    (hw : ∀ x ∈ f :: fs, DelimiterFree x)
    (hl : (encodeFrames (f :: fs)).length < 2147483648)
    (hf : (f :: fs).length ≤ fuel) :
    ∃ st1, processBuffer fuel st (encodeFrames (f :: fs)) = .ok st1 ∧
      st1.dispatched = st.dispatched ++ f :: fs.dropLast := by
  have hwf := hw f (by simp)
  have hl0 := hl
  rw [encodeFrames_cons] at hl
  have hp := parseCommand_frame_rest f.1 f.2 (encodeFrames fs) hwf.1.2.1 hwf.1.2.2 hwf.2.2.2 hl
  have hl2 : (encodeFrames fs).length < 2147483648 := by
    simp only [List.length_append] at hl; omega
  have ha2 : f.2.length < 2147483648 := by
    simp only [List.length_append, formatCommand] at hl; omega
  obtain ⟨st1, h1, h2⟩ := drain_frames fs fuel st f.1 f.2 (fun x hx => hw x (by simp [hx])) hl2
    ha2 (by simp at hf; omega)
  refine ⟨st1, ?_, h2⟩
  unfold processBuffer
  rw [encodeFrames_cons, hp]
  exact h1

theorem helloBranch_clientSockets (c : ConnId) (arguments : Str) (st st1 : ServerState)
    (script rest : Script) (nick : Str)
    (h : helloBranch c arguments st script = .ok (st1, nick, rest)) :
    st1.clientSockets = st.clientSockets := by
  cases hp : parseCommand (recv script).1.2 with
  | error e =>
    have he : helloBranch c arguments st script = .error e := by
      unfold helloBranch
      simp only [hp]
      rfl
    rw [he] at h
    cases h
  | ok r =>
    rw [helloBranch_eq c arguments st script r hp] at h
    cases h
    rfl

theorem chatBranch_clientSockets (arguments : Str) (st st1 : ServerState)
    (h : chatBranch arguments st = .ok st1) : st1.clientSockets = st.clientSockets := by
  cases hp : processChatMessage arguments with
  | error e =>
    have he : chatBranch arguments st = .error e := by
      unfold chatBranch
      rw [hp]
      rfl
    rw [he] at h
    cases h
  | ok msg =>
    rw [chatBranch_eq arguments st msg hp] at h
    cases h
    rfl

theorem handlerIteration_nil (curSock : ConnId) (clientNick : Str) (st : ServerState) :
    handlerIteration curSock clientNick st [] =
      .ok (Flow.done,
        (st.op curSock Op.recv).chat "SERVER_INFORMATION".toList
          ("Client disconnect: ".toList ++ clientNick),
        clientNick, []) := by
  rfl

theorem handlerIteration_clientSockets (curSock : ConnId) (clientNick nick1 : Str)
    (st st1 : ServerState) (script rest : Script) (flow : Flow)
    (h : handlerIteration curSock clientNick st script = .ok (flow, st1, nick1, rest)) :
    st1.clientSockets = st.clientSockets := by
  cases script with
  | nil =>
    rw [handlerIteration_nil] at h
    cases h
    rfl
  | cons x xs =>
    obtain ⟨charsRead, packet⟩ := x
    rw [handlerIteration_cons] at h
    by_cases h1 : charsRead ≤ 0
    · rw [if_pos h1] at h
      cases h
      rfl
    rw [if_neg h1, if_neg (toUInt_ne_npos _)] at h
    cases hp : parseCommand packet with
    | error e => rw [hp] at h; cases h
    | ok r =>
      rw [hp] at h
      change (if r.commandName = "hello".toList then _ else _) = _ at h
      by_cases h2 : r.commandName = "hello".toList
      · rw [if_pos h2] at h
        cases hb : helloBranch curSock r.arguments (st.op curSock Op.recv) xs with
        | error e => rw [hb] at h; cases h
        | ok y =>
          obtain ⟨s2, n2, r2⟩ := y
          have hs := helloBranch_clientSockets curSock r.arguments (st.op curSock Op.recv)
            s2 xs r2 n2 hb
          rw [hb] at h
          cases h
          exact hs
      rw [if_neg h2] at h
      by_cases h3 : r.commandName = "chat".toList
      · rw [if_pos h3] at h
        cases hb : chatBranch r.arguments (st.op curSock Op.recv) with
        | error e => rw [hb] at h; cases h
        | ok s2 =>
          have hs := chatBranch_clientSockets r.arguments (st.op curSock Op.recv) s2 hb
          rw [hb] at h
          cases h
          exact hs
      rw [if_neg h3] at h
      cases h
      rfl

/-- The session handler never changes the client registry: whenever it terminates, the
registry is what it was when the handler started. -/
theorem clientHandlerThread_clientSockets (fuel : Nat) (curSock : ConnId)
    (st st1 : ServerState) (script : Script)
    (h : clientHandlerThread fuel curSock st script = .ok st1) :
    st1.clientSockets = st.clientSockets := by
  unfold clientHandlerThread at h
  generalize "UNSET_CLIENT_NICKNAME".toList = nick at h
  induction fuel generalizing st nick script with
  | zero => cases h
  | succ fuel ih =>
    rw [handlerLoop] at h
    cases hi : handlerIteration curSock nick st script with
    | error e => rw [hi] at h; cases h
    | ok y =>
      obtain ⟨flow, s2, n2, r2⟩ := y
      rw [hi] at h
      have hs := handlerIteration_clientSockets curSock nick n2 st s2 script r2 flow hi
      cases flow with
      | done => cases h; exact hs
      | next => exact (ih _ _ _ h).trans hs

/-! ## Totality of the codec, chat split, reply table -/

theorem toSizeT_neg_one : toSizeT (-1) = 18446744073709551615 := by
  unfold toSizeT; decide

theorem start_le (s : Str) (c : Char) (h : s.length < 2147483648) :
    toSizeT (toInt (toInt (find s c) + 1)) = (idx s c + 1).toNat ∧
      (idx s c + 1).toNat ≤ s.length := by
  have g := idx_ge s c
  have l := idx_lt s c
  rw [toInt_find s c (by omega), toInt_of_range (by omega) (by omega),
    toSizeT_of_nonneg (by omega) (by omega)]
  exact ⟨rfl, by omega⟩

/-- C19: for every input string shorter than 2^31 characters, whichever of `<`, `:`, `>` it
holds and in whatever order, each of the three `substr` calls of `parseCommand` gets a start
position that is at most the length of the string (a character that is not found gives the
position `-1` and the start `0`), and `parseCommand` returns without throwing. -/
theorem parseCommand_total (command : Str) (hlen : command.length < 2147483648) :
    toSizeT (toInt (toInt (find command '<') + 1)) ≤ command.length ∧
    toSizeT (toInt (toInt (find command ':') + 1)) ≤ command.length ∧
    toSizeT (toInt (toInt (find command '>') + 1)) ≤ command.length ∧
    (∀ c : Char, c ∉ command →
      toInt (find command c) = -1 ∧ toSizeT (toInt (toInt (find command c) + 1)) = 0) ∧
    ∃ res, parseCommand command = .ok res := by
  refine ⟨?_, ?_, ?_, ?_, _, parseCommand_eq command hlen⟩
  · rw [(start_le command '<' hlen).1]; exact (start_le command '<' hlen).2
  · rw [(start_le command ':' hlen).1]; exact (start_le command ':' hlen).2
  · rw [(start_le command '>' hlen).1]; exact (start_le command '>' hlen).2
  · intro c hc
    have e := idx_of_not_mem hc
    refine ⟨by rw [toInt_find command c (by omega), e], ?_⟩
    rw [(start_le command c hlen).1, e]; rfl

/-- C19 at the string `>:<`, whose markers are in reverse order. -/
theorem parseCommand_total_witness :
    toSizeT (toInt (toInt (find ">:<".toList '<') + 1)) ≤ ">:<".toList.length ∧
    toSizeT (toInt (toInt (find ">:<".toList ':') + 1)) ≤ ">:<".toList.length ∧
    toSizeT (toInt (toInt (find ">:<".toList '>') + 1)) ≤ ">:<".toList.length ∧
    (∀ c : Char, c ∉ ">:<".toList →
      toInt (find ">:<".toList c) = -1 ∧
        toSizeT (toInt (toInt (find ">:<".toList c) + 1)) = 0) ∧
    ∃ res, parseCommand ">:<".toList = .ok res :=
  parseCommand_total ">:<".toList (by decide)

/-- C16: for every nickname without `:` and every message (the argument being shorter than
2^31 characters), `processChatMessage (nickname ++ ":" ++ message)` yields
`clientNick = nickname` and `message = message`; for an argument without any `:`, both
`clientNick` and `message` are the whole argument. -/
theorem processChatMessage_split (nickname message arguments : Str)
    (hn : ':' ∉ nickname) (ha : ':' ∉ arguments)
    (hlen1 : (nickname ++ ":".toList ++ message).length < 2147483648)
    (hlen2 : arguments.length < 2147483648) :
    processChatMessage (nickname ++ ":".toList ++ message)
      = .ok { clientNick := nickname, message := message } ∧
    processChatMessage arguments = .ok { clientNick := arguments, message := arguments } := by
  constructor
  · have e : nickname ++ ":".toList ++ message = nickname ++ ':' :: message := by simp
    rw [e] at hlen1 ⊢
    rw [processChatMessage_eq _ hlen1, idx_append_cons nickname message ':' hn]
    simp only [List.length_append, List.length_cons] at hlen1 ⊢
    have c1 : toSizeT (nickname.length : Int) = nickname.length := by
      rw [toSizeT_of_nonneg (by omega) (by omega)]; omega
    have c2 : toSizeT (((nickname.length + (message.length + 1) : Nat) : Int)
        - (nickname.length : Int) - 1) = message.length := by
      rw [toSizeT_of_nonneg (by omega) (by omega)]; omega
    have c3 : ((nickname.length : Int) + 1).toNat = nickname.length + 1 := by omega
    have d : List.drop (nickname.length + 1) (nickname ++ ':' :: message) = message := by
      have e2 : nickname ++ ':' :: message = (nickname ++ [':']) ++ message := by simp
      rw [e2]; exact List.drop_left' (by simp)
    rw [c1, c2, c3, d, List.take_left, List.take_length]
  · rw [processChatMessage_eq _ hlen2, idx_of_not_mem ha]
    have c1 : toSizeT ((arguments.length : Int) - -1 - 1) = arguments.length := by
      rw [toSizeT_of_nonneg (by omega) (by omega)]; omega
    rw [toSizeT_neg_one, c1]
    have t : List.take 18446744073709551615 arguments = arguments :=
      List.take_of_length_le (by omega)
    rw [t]
    simp

/-- C16 at the nick `Bob` with a message that holds a `:`, and at the argument `hello`. -/
theorem processChatMessage_split_witness :
    processChatMessage ("Bob".toList ++ ":".toList ++ "see you at 10:30".toList)
      = .ok { clientNick := "Bob".toList, message := "see you at 10:30".toList } ∧
    processChatMessage "hello".toList
      = .ok { clientNick := "hello".toList, message := "hello".toList } :=
  processChatMessage_split "Bob".toList "see you at 10:30".toList "hello".toList
    (by decide) (by decide) (by decide) (by decide)

/-- C13: for every command and arguments (shorter than 2^31 characters) the body of the
client's do-while loop returns normally and the frames it sends are those of `replyTable`:
exactly `<setnick:NICK>` for `picknick`, exactly `<ok:addtile>`, `<ok:addclass>`,
`<ok:addcreature>` for `addtile`, `addclass`, `addcreature`, and no frame for every other
command. -/
theorem client_reply_table (st : ClientState) (serverCommand arguments : Str)
    (h : arguments.length < 2147483648) :
    ∃ st1 ops, dispatch st serverCommand arguments = .ok st1 ∧
      st1.log = st.log ++ ops ∧ sends ops = replyTable st.nick serverCommand := by
  unfold dispatch
  rw [processChatMessage_eq arguments h]
  show ∃ st1 ops, (if serverCommand = "picknick".toList then _ else _) = _ ∧ _
  by_cases c0 : serverCommand = "picknick".toList
  · rw [if_pos c0]
    refine ⟨_, _, rfl, rfl, ?_⟩
    rw [c0]
    rfl
  rw [if_neg c0]
  by_cases c1 : serverCommand = "chat".toList
  · rw [if_pos c1]
    refine ⟨_, [], rfl, (List.append_nil _).symm, ?_⟩
    rw [c1]
    rfl
  rw [if_neg c1]
  by_cases c2 : serverCommand = "newmap".toList
  · rw [if_pos c2]
    refine ⟨_, [], rfl, (List.append_nil _).symm, ?_⟩
    rw [c2]
    rfl
  rw [if_neg c2]
  by_cases c3 : serverCommand = "turnsPerSecond".toList
  · rw [if_pos c3]
    refine ⟨_, [], rfl, (List.append_nil _).symm, ?_⟩
    rw [c3]
    rfl
  rw [if_neg c3]
  by_cases c4 : serverCommand = "addtile".toList
  · rw [if_pos c4]
    refine ⟨_, _, rfl, rfl, ?_⟩
    rw [c4]
    rfl
  rw [if_neg c4]
  by_cases c5 : serverCommand = "addclass".toList
  · rw [if_pos c5]
    refine ⟨_, _, rfl, rfl, ?_⟩
    rw [c5]
    rfl
  rw [if_neg c5]
  by_cases c6 : serverCommand = "addcreature".toList
  · rw [if_pos c6]
    refine ⟨_, _, rfl, rfl, ?_⟩
    rw [c6]
    rfl
  rw [if_neg c6]
  by_cases c7 : serverCommand = "newturn".toList
  · rw [if_pos c7]
    refine ⟨_, [], rfl, (List.append_nil _).symm, ?_⟩
    rw [c7]
    rfl
  rw [if_neg c7]
  by_cases c8 : serverCommand = "creatureAddDestination".toList
  · rw [if_pos c8]
    refine ⟨_, [], rfl, (List.append_nil _).symm, ?_⟩
    rw [c8]
    rfl
  rw [if_neg c8]
  by_cases c9 : serverCommand = "creatureSetAnimationState".toList
  · rw [if_pos c9]
    refine ⟨_, [], rfl, (List.append_nil _).symm, ?_⟩
    rw [c9]
    rfl
  rw [if_neg c9]
  by_cases c10 : serverCommand = "tileFullnessChange".toList
  · rw [if_pos c10]
    refine ⟨_, [], rfl, (List.append_nil _).symm, ?_⟩
    rw [c10]
    rfl
  rw [if_neg c10]
  refine ⟨_, [], rfl, (List.append_nil _).symm, ?_⟩
  rw [replyTable, if_neg c0, if_neg c4, if_neg c5, if_neg c6]
  rfl

/-- C13 at an `addtile` frame. -/
theorem client_reply_table_witness :
    ∃ st1 ops, dispatch (freshClient "Bob".toList) "addtile".toList "3 4 0".toList = .ok st1 ∧
      st1.log = (freshClient "Bob".toList).log ++ ops ∧
      sends ops = replyTable (freshClient "Bob".toList).nick "addtile".toList :=
  client_reply_table (freshClient "Bob".toList) "addtile".toList "3 4 0".toList (by decide)

/-! ## The turn scheduler -/

/-- C14: with a world-simulation step `doTurn` that changes neither the turn counter nor the
notification queue, `n` complete cycles of `creatureAIThread` started with counter `t` and
queue `q` end with counter `t + n` and queue `q` followed by `n` `turnStarted` notifications;
one cycle appends exactly one such notification and adds exactly 1 to the counter. -/
theorem creatureAIThread_cycles (doTurn : ServerState → ServerState)
    (hturn : ∀ s, (doTurn s).turnNumber = s.turnNumber)
    (hqueue : ∀ s, (doTurn s).serverNotificationQueue = s.serverNotificationQueue)
    (n : Nat) (st : ServerState) :
    (creatureAIThread doTurn n st).turnNumber = st.turnNumber + n ∧
    (creatureAIThread doTurn n st).serverNotificationQueue
      = st.serverNotificationQueue ++ List.replicate n (some turnStartedNotification) ∧
    (creatureAICycle doTurn st).turnNumber = st.turnNumber + 1 ∧
    (creatureAICycle doTurn st).serverNotificationQueue
      = st.serverNotificationQueue ++ [some turnStartedNotification] ∧
    turnStartedNotification.type = NotificationType.turnStarted := by
  have hc : ∀ s, (creatureAICycle doTurn s).turnNumber = s.turnNumber + 1 ∧
      (creatureAICycle doTurn s).serverNotificationQueue
        = s.serverNotificationQueue ++ [some turnStartedNotification] := by
    intro s
    simp [creatureAICycle, hturn, hqueue, enqueue]
  refine ⟨?_, ?_, (hc st).1, (hc st).2, rfl⟩
  · induction n generalizing st with
    | zero => simp [creatureAIThread]
    | succ n ih =>
      rw [creatureAIThread, ih, (hc st).1]
      push_cast; ring
  · induction n generalizing st with
    | zero => simp [creatureAIThread]
    | succ n ih =>
      rw [creatureAIThread, ih, (hc st).2, List.replicate_succ]
      simp

/-- C14 for three cycles in the scenario, with a step that empties the game map. -/
theorem creatureAIThread_cycles_witness :
    (creatureAIThread (fun s => { s with gameMap := ⟨[], [], []⟩ }) 3
        scenarioServer).turnNumber = scenarioServer.turnNumber + (3 : Nat) ∧
    (creatureAIThread (fun s => { s with gameMap := ⟨[], [], []⟩ }) 3
        scenarioServer).serverNotificationQueue
      = scenarioServer.serverNotificationQueue
          ++ List.replicate 3 (some turnStartedNotification) ∧
    (creatureAICycle (fun s => { s with gameMap := ⟨[], [], []⟩ })
        scenarioServer).turnNumber = scenarioServer.turnNumber + 1 ∧
    (creatureAICycle (fun s => { s with gameMap := ⟨[], [], []⟩ })
        scenarioServer).serverNotificationQueue
      = scenarioServer.serverNotificationQueue ++ [some turnStartedNotification] ∧
    turnStartedNotification.type = NotificationType.turnStarted :=
  creatureAIThread_cycles (fun s => { s with gameMap := ⟨[], [], []⟩ })
    (fun _ => rfl) (fun _ => rfl) 3 scenarioServer

/-! ## The central tile of a building -/

theorem foldl_boundsStep (l : List Tile) (b : Bounds) :
    ((l.foldl boundsStep b).minX ≤ b.minX ∧ (∀ t ∈ l, (l.foldl boundsStep b).minX ≤ t.x) ∧
      ((l.foldl boundsStep b).minX = b.minX ∨ ∃ t ∈ l, t.x = (l.foldl boundsStep b).minX)) ∧
    (b.maxX ≤ (l.foldl boundsStep b).maxX ∧ (∀ t ∈ l, t.x ≤ (l.foldl boundsStep b).maxX) ∧
      ((l.foldl boundsStep b).maxX = b.maxX ∨ ∃ t ∈ l, t.x = (l.foldl boundsStep b).maxX)) ∧
    ((l.foldl boundsStep b).minY ≤ b.minY ∧ (∀ t ∈ l, (l.foldl boundsStep b).minY ≤ t.y) ∧
      ((l.foldl boundsStep b).minY = b.minY ∨ ∃ t ∈ l, t.y = (l.foldl boundsStep b).minY)) ∧
    (b.maxY ≤ (l.foldl boundsStep b).maxY ∧ (∀ t ∈ l, t.y ≤ (l.foldl boundsStep b).maxY) ∧
      ((l.foldl boundsStep b).maxY = b.maxY ∨ ∃ t ∈ l, t.y = (l.foldl boundsStep b).maxY)) := by
  induction l generalizing b with
  | nil => simp
  | cons t l ih =>
    obtain ⟨⟨a1, a2, a3⟩, ⟨b1, b2, b3⟩, ⟨c1, c2, c3⟩, ⟨d1, d2, d3⟩⟩ := ih (boundsStep b t)
    simp only [List.foldl_cons, List.mem_cons, forall_eq_or_imp, exists_eq_or_imp]
    have s1 : (boundsStep b t).minX = if t.x < b.minX then t.x else b.minX := rfl
    have s2 : (boundsStep b t).maxX = if t.x > b.maxX then t.x else b.maxX := rfl
    have s3 : (boundsStep b t).minY = if t.y < b.minY then t.y else b.minY := rfl
    have s4 : (boundsStep b t).maxY = if t.y > b.maxY then t.y else b.maxY := rfl
    refine ⟨⟨?_, ⟨?_, a2⟩, ?_⟩, ⟨?_, ⟨?_, b2⟩, ?_⟩, ⟨?_, ⟨?_, c2⟩, ?_⟩, ⟨?_, ⟨?_, d2⟩, ?_⟩⟩
    · rw [s1] at a1; split at a1 <;> omega
    · rw [s1] at a1; split at a1 <;> omega
    · rcases a3 with h | h
      · rw [s1] at h; split at h
        · exact Or.inr (Or.inl h.symm)
        · exact Or.inl h
      · exact Or.inr (Or.inr h)
    · rw [s2] at b1; split at b1 <;> omega
    · rw [s2] at b1; split at b1 <;> omega
    · rcases b3 with h | h
      · rw [s2] at h; split at h
        · exact Or.inr (Or.inl h.symm)
        · exact Or.inl h
      · exact Or.inr (Or.inr h)
    · rw [s3] at c1; split at c1 <;> omega
    · rw [s3] at c1; split at c1 <;> omega
    · rcases c3 with h | h
      · rw [s3] at h; split at h
        · exact Or.inr (Or.inl h.symm)
        · exact Or.inl h
      · exact Or.inr (Or.inr h)
    · rw [s4] at d1; split at d1 <;> omega
    · rw [s4] at d1; split at d1 <;> omega
    · rcases d3 with h | h
      · rw [s4] at h; split at h
        · exact Or.inr (Or.inl h.symm)
        · exact Or.inl h
      · exact Or.inr (Or.inr h)

theorem tdiv_two_between (lo hi : Int) (h : lo ≤ hi) :
    lo ≤ Int.tdiv (lo + hi) 2 ∧ Int.tdiv (lo + hi) 2 ≤ hi := by
  by_cases hs : 0 ≤ lo + hi
  · rw [Int.tdiv_eq_ediv hs (by decide)]; omega
  · have e : lo + hi = -(-(lo + hi)) := by ring
    rw [e, Int.neg_tdiv, Int.tdiv_eq_ediv (by omega) (by decide)]; omega

/-- C20: `getCentralTile` returns null for an empty list of covered tiles; for a non-empty
list there are `minX`, `maxX`, `minY`, `maxY`, the least and greatest `x` and `y` over all
covered tiles, such that, when `minX + maxX` and `minY + maxY` fit in an `int`, the result is
`getTile` at `((minX + maxX) / 2, (minY + maxY) / 2)` with truncating division, and this point
lies in `[minX, maxX] x [minY, maxY]`, whatever the signs of the coordinates. -/
theorem getCentralTile_midpoint (getTile : Int → Int → Option Tile) (tiles : List Tile)
    (hne : tiles ≠ []) :
    getCentralTile getTile [] = none ∧
    ∃ minX maxX minY maxY : Int,
      ((∃ t ∈ tiles, t.x = minX) ∧ ∀ t ∈ tiles, minX ≤ t.x) ∧
      ((∃ t ∈ tiles, t.x = maxX) ∧ ∀ t ∈ tiles, t.x ≤ maxX) ∧
      ((∃ t ∈ tiles, t.y = minY) ∧ ∀ t ∈ tiles, minY ≤ t.y) ∧
      ((∃ t ∈ tiles, t.y = maxY) ∧ ∀ t ∈ tiles, t.y ≤ maxY) ∧
      (-2147483648 ≤ minX + maxX ∧ minX + maxX < 2147483648 ∧
        -2147483648 ≤ minY + maxY ∧ minY + maxY < 2147483648 →
        getCentralTile getTile tiles
          = getTile (Int.tdiv (minX + maxX) 2) (Int.tdiv (minY + maxY) 2)) ∧
      (minX ≤ Int.tdiv (minX + maxX) 2 ∧ Int.tdiv (minX + maxX) 2 ≤ maxX) ∧
      (minY ≤ Int.tdiv (minY + maxY) 2 ∧ Int.tdiv (minY + maxY) 2 ≤ maxY) := by
  refine ⟨rfl, ?_⟩
  cases tiles with
  | nil => exact absurd rfl hne
  | cons first rest =>
    obtain ⟨⟨a1, a2, a3⟩, ⟨b1, b2, b3⟩, ⟨c1, c2, c3⟩, ⟨d1, d2, d3⟩⟩ :=
      foldl_boundsStep (first :: rest)
        { minX := first.x, maxX := first.x, minY := first.y, maxY := first.y }
    have hf : first ∈ first :: rest := by simp
    refine ⟨_, _, _, _, ⟨?_, a2⟩, ⟨?_, b2⟩, ⟨?_, c2⟩, ⟨?_, d2⟩, ?_,
      tdiv_two_between _ _ (a1.trans b1), tdiv_two_between _ _ (c1.trans d1)⟩
    · rcases a3 with h | h
      · exact ⟨first, hf, h.symm⟩
      · exact h
    · rcases b3 with h | h
      · exact ⟨first, hf, h.symm⟩
      · exact h
    · rcases c3 with h | h
      · exact ⟨first, hf, h.symm⟩
      · exact h
    · rcases d3 with h | h
      · exact ⟨first, hf, h.symm⟩
      · exact h
    · rintro ⟨h1, h2, h3, h4⟩
      unfold getCentralTile
      simp only
      rw [toInt_of_range h1 h2, toInt_of_range h3 h4]

/-- C20 at three covered tiles with negative coordinates. -/
theorem getCentralTile_midpoint_witness :
    getCentralTile (fun x y => some ⟨x, y, [], []⟩) [] = none ∧
    ∃ minX maxX minY maxY : Int,
      ((∃ t ∈ [(⟨-3, 0, [], []⟩ : Tile), ⟨0, 5, [], []⟩, ⟨-2, -2, [], []⟩], t.x = minX) ∧
        ∀ t ∈ [(⟨-3, 0, [], []⟩ : Tile), ⟨0, 5, [], []⟩, ⟨-2, -2, [], []⟩], minX ≤ t.x) ∧
      ((∃ t ∈ [(⟨-3, 0, [], []⟩ : Tile), ⟨0, 5, [], []⟩, ⟨-2, -2, [], []⟩], t.x = maxX) ∧
        ∀ t ∈ [(⟨-3, 0, [], []⟩ : Tile), ⟨0, 5, [], []⟩, ⟨-2, -2, [], []⟩], t.x ≤ maxX) ∧
      ((∃ t ∈ [(⟨-3, 0, [], []⟩ : Tile), ⟨0, 5, [], []⟩, ⟨-2, -2, [], []⟩], t.y = minY) ∧
        ∀ t ∈ [(⟨-3, 0, [], []⟩ : Tile), ⟨0, 5, [], []⟩, ⟨-2, -2, [], []⟩], minY ≤ t.y) ∧
      ((∃ t ∈ [(⟨-3, 0, [], []⟩ : Tile), ⟨0, 5, [], []⟩, ⟨-2, -2, [], []⟩], t.y = maxY) ∧
        ∀ t ∈ [(⟨-3, 0, [], []⟩ : Tile), ⟨0, 5, [], []⟩, ⟨-2, -2, [], []⟩], t.y ≤ maxY) ∧
      (-2147483648 ≤ minX + maxX ∧ minX + maxX < 2147483648 ∧
        -2147483648 ≤ minY + maxY ∧ minY + maxY < 2147483648 →
        getCentralTile (fun x y => some ⟨x, y, [], []⟩)
            [(⟨-3, 0, [], []⟩ : Tile), ⟨0, 5, [], []⟩, ⟨-2, -2, [], []⟩]
          = (fun x y => some ⟨x, y, [], []⟩) (Int.tdiv (minX + maxX) 2)
              (Int.tdiv (minY + maxY) 2)) ∧
      (minX ≤ Int.tdiv (minX + maxX) 2 ∧ Int.tdiv (minX + maxX) 2 ≤ maxX) ∧
      (minY ≤ Int.tdiv (minY + maxY) 2 ∧ Int.tdiv (minY + maxY) 2 ≤ maxY) :=
  getCentralTile_midpoint (fun x y => some ⟨x, y, [], []⟩)
    [⟨-3, 0, [], []⟩, ⟨0, 5, [], []⟩, ⟨-2, -2, [], []⟩] (by decide)

/-! ## Send failures, receive failures, packets without a colon -/

theorem sendAttempts_guardedOps (frame : Str) (l : List ConnId) :
    sendAttempts (l.flatMap (guardedOps frame)) = l.map fun c => (c, frame) := by
  induction l with
  | nil => rfl
  | cons c l ih =>
    have h := ih
    unfold sendAttempts at h ⊢
    rw [List.flatMap_cons, List.filterMap_append, h]
    rfl

/-- C15: for every registry and every list `failing` of connections on which `send` fails
(its status is `false` there), `sendToAllClients` returns, and the sends it attempts are the
frame once on every connection of the registry, in registry order. -/
theorem sendToAllClients_isolation (st : ServerState) (failing : List ConnId) (str : Str) :
    (∀ c ∈ failing, ∀ s : ServerState, s.sendFails = failing → (s.send c str).1 = false) ∧
    ∃ ops, sendToAllClients { st with sendFails := failing } str
        = { st with sendFails := failing, log := st.log ++ ops } ∧
      sendAttempts ops = st.clientSockets.map fun c => (c, str) := by
  refine ⟨?_, _, sendToAllClients_eq _ str, sendAttempts_guardedOps str st.clientSockets⟩
  intro c hc s hs
  simp [ServerState.send, hs, hc]

/-- The steady-state receive is terminal: when it reports a length `<= 0` the iteration
records the receive and the disconnect message, sends nothing and leaves the loop. -/
theorem steady_state_failure_terminal (curSock : ConnId) (clientNick : Str) (st : ServerState)
    (charsRead : Int) (packet : Str) (rest : Script) (h : charsRead ≤ 0) :
    handlerIteration curSock clientNick st ((charsRead, packet) :: rest)
      = .ok (Flow.done,
          (st.op curSock Op.recv).chat "SERVER_INFORMATION".toList
            ("Client disconnect: ".toList ++ clientNick),
          clientNick, rest) := by
  rw [handlerIteration_cons, if_pos h]

/-- C11 (defect in the code): the handler of connection `1` receives `hello`, sends
`picknick`, and the receive of the nick reports length `0`; it goes on to send `newmap` and
all eight snapshot items, each followed by a receive whose result it does not look at. Only
the steady-state receive at the end closes the session. -/
theorem failed_receive_in_snapshot_not_terminal :
    (clientHandlerThread 3 1 scenarioServer [(18, "<hello:TestClient>".toList), (0, [])]).map
      (fun s => transfers 1 s.log)
    = .ok ([Op.recv, Op.send "<picknick:>".toList, Op.recv, Op.send "<newmap:>".toList,
        Op.send "<addtile:0 0 1 100>".toList, Op.recv,
        Op.send "<addtile:0 1 0 0>".toList, Op.recv,
        Op.send "<addtile:1 0 1 50>".toList, Op.recv,
        Op.send "<addclass:Imp\tImp.mesh\t1\t1\t1\t10\t5\t7.5\t2\n>".toList, Op.recv,
        Op.send "<addcreature:Imp Imp_1 0 0 0>".toList, Op.recv,
        Op.send "<addcreature:Imp Imp_2 1 0 0>".toList, Op.recv, Op.recv]) := by
  decide

/-- C17 (defect in the code): the packets `hello` and `chat` contain no `:`, yet
`parseCommand` is run on them and the command is dispatched: `hello` triggers the whole
handshake and snapshot on the connection and two entries in the chat log, `chat` is relayed
as `<chat:chat:chat>` and logged. -/
theorem colonless_packet_is_processed :
    ':' ∉ "hello".toList ∧
    parseCommand "hello".toList = .ok ⟨true, "hello".toList, "hello".toList, "hello".toList⟩ ∧
    (handlerIteration 1 "Bob".toList scenarioServer [(5, "hello".toList)]).map
      (fun x => (x.1, sentTo 1 x.2.1.log, x.2.1.chatMessages.length))
    = .ok (Flow.next, ["<picknick:>".toList, "<newmap:>".toList,
        "<addtile:0 0 1 100>".toList, "<addtile:0 1 0 0>".toList, "<addtile:1 0 1 50>".toList,
        "<addclass:Imp\tImp.mesh\t1\t1\t1\t10\t5\t7.5\t2\n>".toList,
        "<addcreature:Imp Imp_1 0 0 0>".toList, "<addcreature:Imp Imp_2 1 0 0>".toList], 2) ∧
    (handlerIteration 1 "Bob".toList scenarioServer [(4, "chat".toList)]).map
      (fun x => (sentTo 2 x.2.1.log, x.2.1.chatMessages))
    = .ok (["<chat:chat:chat>".toList], [⟨"chat".toList, "chat".toList⟩]) := by
  decide

/-! ## The send guards -/

theorem guardScan_append (a b : List Op) (held : Bool) :
    guardScan held (a ++ b) = (guardScan held a).bind fun h => guardScan h b := by
  induction a generalizing held with
  | nil => rfl
  | cons o a ih =>
    cases o <;> cases held <;> simp [guardScan, ih]

theorem Disciplined_append {a b : List Op} (ha : Disciplined a) (hb : Disciplined b) :
    Disciplined (a ++ b) := by
  unfold Disciplined at *
  rw [guardScan_append, ha]
  exact hb

theorem guardScan_delta (ops : List Op) (held h1 : Bool) (h : guardScan held ops = some h1) :
    guardDelta ops = (if held then 1 else 0) - (if h1 then 1 else 0) := by
  induction ops generalizing held with
  | nil =>
    simp only [guardScan, Option.some.injEq] at h
    subst h
    simp [guardDelta]
  | cons o ops ih =>
    cases o <;> cases held <;> simp [guardScan] at h <;>
      (have e := ih _ h
       simp only [guardDelta, List.count_cons] at e ⊢
       simp at e ⊢
       omega)

theorem Disciplined_delta {ops : List Op} (h : Disciplined ops) : guardDelta ops = 0 := by
  have e := guardScan_delta ops false false h
  simpa using e

theorem guardScan_transfers (ops : List Op) (h : ∀ o ∈ ops, o.isSend || o.isRecv) :
    guardScan true ops = some true := by
  induction ops with
  | nil => rfl
  | cons o ops ih =>
    have ho := h o (by simp)
    have ht := ih fun x hx => h x (by simp [hx])
    cases o <;> simp_all [guardScan, Op.isSend, Op.isRecv]

theorem opsOn_append (c : ConnId) (a b : List (ConnId × Op)) :
    opsOn c (a ++ b) = opsOn c a ++ opsOn c b := by
  simp [opsOn, List.filterMap_append]

theorem opsOn_map_mk (c d : ConnId) (ops : List Op) :
    opsOn c (ops.map (Prod.mk d)) = if d = c then ops else [] := by
  induction ops with
  | nil => simp [opsOn]
  | cons o ops ih =>
    have h := ih
    unfold opsOn at h ⊢
    rw [List.map_cons, List.filterMap_cons, h]
    by_cases e : d = c <;> simp [e]

theorem Disciplined_guardedOps (c : ConnId) (frame : Str) (l : List ConnId) :
    Disciplined (opsOn c (l.flatMap (guardedOps frame))) := by
  induction l with
  | nil => rfl
  | cons d l ih =>
    rw [List.flatMap_cons, opsOn_append]
    refine Disciplined_append ?_ ih
    by_cases e : d = c
    · simp [opsOn, guardedOps, e, Disciplined, guardScan]
    · simp [opsOn, guardedOps, e, Disciplined, guardScan]

theorem helloTransfers_kinds (g : GameMap) : ∀ o ∈ helloTransfers g, o.isSend || o.isRecv := by
  intro o ho
  have h := helloTransfers_filter g
  rw [List.filter_eq_self] at h
  exact h o ho

theorem Disciplined_hello (c curSock : ConnId) (g : GameMap) :
    Disciplined (opsOn c (((Op.semWait :: helloTransfers g) ++ [Op.semPost]).map
      (Prod.mk curSock))) := by
  rw [opsOn_map_mk]
  by_cases e : curSock = c
  · rw [if_pos e]
    show guardScan true (helloTransfers g ++ [Op.semPost]) = some false
    rw [guardScan_append, guardScan_transfers _ (helloTransfers_kinds g)]
    rfl
  · rw [if_neg e]; rfl

/-! ## Termination of the client's loops -/

theorem cutFirst_append_cons (p q : Str) (h : '>' ∉ p) : cutFirst (p ++ '>' :: q) = q := by
  unfold cutFirst
  induction p with
  | nil => simp [List.dropWhile]
  | cons x p ih =>
    have hx : x ≠ '>' := fun e => h (by simp [e])
    have hp : '>' ∉ p := fun e => h (by simp [e])
    simp only [List.cons_append, List.dropWhile_cons, bne_iff_ne, ne_eq, hx, not_false_eq_true,
      if_true]
    exact ih hp

theorem closed_tail (p q : Str) (h : Closed (p ++ '>' :: q)) : Closed q := by
  rcases h with h | h
  · simp at h
  · cases q with
    | nil => exact Or.inl rfl
    | cons y q =>
      right
      rw [List.getLast?_append] at h
      rw [List.getLast?_cons_cons] at h
      cases hq : (y :: q).getLast? with
      | none => simp at hq
      | some z => rw [hq] at h; simpa using h

theorem closed_mem {buf : Str} (h : Closed buf) (hne : buf ≠ []) : '>' ∈ buf := by
  rcases h with h | h
  · exact absurd h hne
  · obtain ⟨ys, rfl⟩ := List.getLast?_eq_some_iff.mp h
    simp

theorem closed_count {buf : Str} (h : Closed buf) : buf = [] ↔ buf.count '>' = 0 := by
  constructor
  · intro e; simp [e]
  · intro e
    by_contra hne
    exact (List.count_eq_zero.mp e) (closed_mem h hne)

theorem count_append_cons (p q : Str) (h : '>' ∉ p) :
    (p ++ '>' :: q).count '>' = q.count '>' + 1 := by
  rw [List.count_append, List.count_eq_zero.mpr h]
  simp

theorem parseCommand_cut (p q : Str) (h : '>' ∉ p)
    (hlen : (p ++ '>' :: q).length < 2147483648) :
    ∃ res, parseCommand (p ++ '>' :: q) = .ok res ∧ res.command = q ∧
      res.ret = decide (q ≠ []) ∧ res.arguments.length ≤ (p ++ '>' :: q).length := by
  refine ⟨_, parseCommand_eq _ hlen, ?_, ?_, ?_⟩
  · rw [idx_append_cons p q '>' h]
    have e : ((p.length : Int) + 1).toNat = p.length + 1 := by omega
    have e2 : p ++ '>' :: q = (p ++ ['>']) ++ q := by simp
    simp only [e]
    rw [e2]; exact List.drop_left' (by simp)
  · rw [idx_append_cons p q '>' h]
    have e : ((p.length : Int) + 1).toNat = p.length + 1 := by omega
    have e2 : p ++ '>' :: q = (p ++ ['>']) ++ q := by simp
    simp only [e]
    rw [e2, List.drop_left' (by simp)]
    simp [List.length_pos]
  · simp only [List.length_take, List.length_drop]
    omega

theorem parseCommand_nil : parseCommand [] = .ok ⟨false, [], [], []⟩ := by decide

theorem clientStep_refl (st : ClientState) : ClientStep st st :=
  ⟨rfl, rfl, [], (List.append_nil _).symm, rfl⟩

theorem clientStep_trans {a b c : ClientState} (h1 : ClientStep a b) (h2 : ClientStep b c) :
    ClientStep a c := by
  obtain ⟨v1, n1, o1, l1, d1⟩ := h1
  obtain ⟨v2, n2, o2, l2, d2⟩ := h2
  exact ⟨v2.trans v1, n2.trans n1, o1 ++ o2, by rw [l2, l1, List.append_assoc],
    Disciplined_append d1 d2⟩

theorem disciplined_guardedSend (data : Str) :
    Disciplined [Op.semWait, Op.send data, Op.semPost] := by
  rfl

theorem dispatch_step (st : ClientState) (serverCommand arguments : Str)
    (h : arguments.length < 2147483648) :
    ∃ st1, dispatch st serverCommand arguments = .ok st1 ∧ ClientStep st st1 := by
  unfold dispatch
  rw [processChatMessage_eq arguments h]
  show ∃ st1, (if serverCommand = "picknick".toList then _ else _) = _ ∧ _
  by_cases c0 : serverCommand = "picknick".toList
  · rw [if_pos c0]
    exact ⟨_, rfl, rfl, rfl, _, rfl, disciplined_guardedSend _⟩
  rw [if_neg c0]
  clear c0
  by_cases c1 : serverCommand = "chat".toList
  · rw [if_pos c1]
    exact ⟨_, rfl, rfl, rfl, [], (List.append_nil _).symm, rfl⟩
  rw [if_neg c1]
  clear c1
  by_cases c2 : serverCommand = "newmap".toList
  · rw [if_pos c2]
    exact ⟨_, rfl, rfl, rfl, [], (List.append_nil _).symm, rfl⟩
  rw [if_neg c2]
  clear c2
  by_cases c3 : serverCommand = "turnsPerSecond".toList
  · rw [if_pos c3]
    exact ⟨_, rfl, rfl, rfl, [], (List.append_nil _).symm, rfl⟩
  rw [if_neg c3]
  clear c3
  by_cases c4 : serverCommand = "addtile".toList
  · rw [if_pos c4]
    exact ⟨_, rfl, rfl, rfl, _, rfl, disciplined_guardedSend _⟩
  rw [if_neg c4]
  clear c4
  by_cases c5 : serverCommand = "addclass".toList
  · rw [if_pos c5]
    exact ⟨_, rfl, rfl, rfl, _, rfl, disciplined_guardedSend _⟩
  rw [if_neg c5]
  clear c5
  by_cases c6 : serverCommand = "addcreature".toList
  · rw [if_pos c6]
    exact ⟨_, rfl, rfl, rfl, _, rfl, disciplined_guardedSend _⟩
  rw [if_neg c6]
  clear c6
  by_cases c7 : serverCommand = "newturn".toList
  · rw [if_pos c7]
    exact ⟨_, rfl, rfl, rfl, [], (List.append_nil _).symm, rfl⟩
  rw [if_neg c7]
  clear c7
  by_cases c8 : serverCommand = "creatureAddDestination".toList
  · rw [if_pos c8]
    exact ⟨_, rfl, rfl, rfl, [], (List.append_nil _).symm, rfl⟩
  rw [if_neg c8]
  clear c8
  by_cases c9 : serverCommand = "creatureSetAnimationState".toList
  · rw [if_pos c9]
    exact ⟨_, rfl, rfl, rfl, [], (List.append_nil _).symm, rfl⟩
  rw [if_neg c9]
  clear c9
  by_cases c10 : serverCommand = "tileFullnessChange".toList
  · rw [if_pos c10]
    exact ⟨_, rfl, rfl, rfl, [], (List.append_nil _).symm, rfl⟩
  rw [if_neg c10]
  clear c10
  exact ⟨_, rfl, rfl, rfl, [], (List.append_nil _).symm, rfl⟩

theorem drain_total (fuel : Nat) :
    ∀ (buf : Str) (st : ClientState) (serverCommand arguments : Str),
      Closed buf → buf.length < 2147483648 → arguments.length < 2147483648 →
      buf.count '>' < fuel →
      ∃ st1, drain fuel st buf serverCommand arguments = .ok st1 ∧ ClientStep st st1 := by
  induction fuel with
  | zero => intro buf st _ _ _ _ _ hf; omega
  | succ fuel ih =>
    intro buf st serverCommand arguments hc hlen ha hf
    obtain ⟨st1, h1, s1⟩ := dispatch_step st serverCommand arguments ha
    by_cases hne : buf = []
    · subst hne
      refine ⟨st1, ?_, s1⟩
      rw [drain, h1, parseCommand_nil]
      rfl
    · obtain ⟨p, q, rfl, hp⟩ := List.eq_append_cons_of_mem (closed_mem hc hne)
      obtain ⟨res, hr, hcmd, hret, harg⟩ := parseCommand_cut p q hp hlen
      have hq : Closed q := closed_tail p q hc
      rw [count_append_cons p q hp] at hf
      have hlq : q.length < 2147483648 := by
        simp only [List.length_append, List.length_cons] at hlen; omega
      by_cases hqe : q = []
      · refine ⟨st1, ?_, s1⟩
        rw [drain, h1, hr]
        have : res.ret = false := by rw [hret]; simp [hqe]
        simp [bind, Except.bind, this, pure, Except.pure]
      · obtain ⟨st2, h2, s2⟩ := ih q st1 res.commandName res.arguments hq hlq (by omega)
          (by omega)
        refine ⟨st2, ?_, clientStep_trans s1 s2⟩
        rw [drain, h1, hr]
        have : res.ret = true := by rw [hret]; simp [hqe]
        simp only [bind, Except.bind, this, if_true, hcmd]
        exact h2

theorem processBuffer_total (fuel : Nat) (buf : Str) (st : ClientState)
    (hc : Closed buf) (hlen : buf.length < 2147483648)
    (hf : buf.count '>' ≤ fuel) (hpos : 0 < fuel) :
    ∃ st1, processBuffer fuel st buf = .ok st1 ∧ ClientStep st st1 := by
  by_cases hne : buf = []
  · subst hne
    obtain ⟨st1, h1, s1⟩ := drain_total fuel [] st [] [] (Or.inl rfl) (by simp) (by simp)
      (by simpa using hpos)
    refine ⟨st1, ?_, s1⟩
    unfold processBuffer
    rw [parseCommand_nil]
    exact h1
  · obtain ⟨p, q, rfl, hp⟩ := List.eq_append_cons_of_mem (closed_mem hc hne)
    obtain ⟨res, hr, hcmd, _, harg⟩ := parseCommand_cut p q hp hlen
    rw [count_append_cons p q hp] at hf
    have hlq : q.length < 2147483648 := by
      simp only [List.length_append, List.length_cons] at hlen; omega
    obtain ⟨st1, h1, s1⟩ := drain_total fuel q st res.commandName res.arguments
      (closed_tail p q hc) hlq (by omega) (by omega)
    refine ⟨st1, ?_, s1⟩
    unfold processBuffer
    rw [hr]
    simp only [bind, Except.bind, hcmd]
    exact h1

theorem clientStep_recv (st : ClientState) :
    ClientStep st { st with log := st.log ++ [Op.recv] } :=
  ⟨rfl, rfl, [Op.recv], rfl, rfl⟩

theorem bytes_cons (e : Int × Str) (script : Script) :
    bytes (e :: script) = e.2.length + bytes script := by
  simp [bytes]

theorem recvLoop_spec (script : Script) :
    ∀ (st : ClientState) (acc : Str),
      ClientStep st (recvLoop st acc script).1 ∧
      (recvLoop st acc script).2.2.length ≤ script.length ∧
      bytes (recvLoop st acc script).2.2 ≤ bytes script ∧
      ∀ buf, (recvLoop st acc script).2.1 = some buf →
        buf.getLast? = some '>' ∧
        buf.length + bytes (recvLoop st acc script).2.2 ≤ acc.length + bytes script ∧
        (recvLoop st acc script).2.2.length < script.length := by
  induction script with
  | nil =>
    intro st acc
    refine ⟨clientStep_recv st, le_refl _, le_refl _, ?_⟩
    intro buf h
    simp [recvLoop] at h
  | cons e script ih =>
    intro st acc
    obtain ⟨charsRead, tempString⟩ := e
    rw [recvLoop]
    by_cases h1 : charsRead ≤ 0
    · simp only [h1, if_true]
      refine ⟨clientStep_recv st, by simp, by simp [bytes_cons], ?_⟩
      intro buf h
      simp at h
    · simp only [h1, if_false]
      by_cases h2 : (acc ++ tempString).getLast? = some '>'
      · simp only [h2, if_true]
        refine ⟨clientStep_recv st, by simp, by simp [bytes_cons], ?_⟩
        intro buf h
        simp only [Option.some.injEq] at h
        subst h
        refine ⟨h2, ?_, by simp⟩
        simp [bytes_cons]; omega
      · simp only [h2, if_false]
        obtain ⟨a, b, c, d⟩ := ih { st with log := st.log ++ [Op.recv] } (acc ++ tempString)
        refine ⟨clientStep_trans (clientStep_recv st) a, by simp; omega,
          by rw [bytes_cons]; omega, ?_⟩
        intro buf h
        obtain ⟨d1, d2, d3⟩ := d buf h
        refine ⟨d1, ?_, by simp; omega⟩
        rw [bytes_cons]
        simp only [List.length_append] at d2
        simp only
        omega

theorem clientLoop_succ (fuel : Nat) (script : Script) (st : ClientState) :
    clientLoop (fuel + 1) script st =
      if st.valid then
        match recvLoop st [] script with
        | (st1, none, _) =>
          .ok { st1 with chatMessages := st1.chatMessages ++
            [⟨"SERVER_INFORMATION".toList, "Server disconnect.".toList⟩] }
        | (st1, some commandFromServer, rest) =>
          (processBuffer fuel st1 commandFromServer).bind fun st2 => clientLoop fuel rest st2
      else .ok st := by
  rfl

theorem clientLoop_total (fuel : Nat) :
    ∀ (script : Script) (st : ClientState),
      bytes script < 2147483648 → script.length + bytes script + 1 ≤ fuel →
      ∃ st1, clientLoop fuel script st = .ok st1 ∧ ClientStep st st1 := by
  induction fuel with
  | zero => intro script st _ hf; omega
  | succ fuel ih =>
    intro script st hb hf
    rw [clientLoop_succ]
    by_cases hv : st.valid = true
    · rw [if_pos hv]
      obtain ⟨a, b, c, d⟩ := recvLoop_spec script st []
      generalize recvLoop st [] script = r at a b c d
      obtain ⟨s1, res, rest⟩ := r
      cases res with
      | none =>
        obtain ⟨v, n, ops, l, dd⟩ := a
        exact ⟨_, rfl, v, n, ops, l, dd⟩
      | some buf =>
        obtain ⟨d1, d2, d3⟩ := d buf rfl
        have e2 : buf.length + bytes rest ≤ bytes script := by
          have := d2
          simp only [List.length_nil, Nat.zero_add] at this
          exact this
        have e3 : rest.length < script.length := d3
        have hcount : buf.count '>' ≤ buf.length := List.count_le_length _ _
        obtain ⟨s2, h2, t2⟩ := processBuffer_total fuel buf s1 (Or.inr d1) (by omega)
          (by omega) (by omega)
        obtain ⟨s3, h3, t3⟩ := ih rest s2 (by omega) (by omega)
        refine ⟨s3, ?_, clientStep_trans a (clientStep_trans t2 t3)⟩
        show (processBuffer fuel s1 buf).bind (fun st2 => clientLoop fuel rest st2) = _
        rw [h2]
        exact h3
    · rw [if_neg hv]
      exact ⟨st, rfl, clientStep_refl st⟩

theorem clientStep_guardedSend (st : ClientState) (data : Str) :
    ClientStep st (st.guardedSend data) :=
  ⟨rfl, rfl, [Op.semWait, Op.send data, Op.semPost], rfl, disciplined_guardedSend data⟩

theorem clientSocketProcessor_total (fuel : Nat) (version : Str) (script : Script)
    (st : ClientState) (hb : bytes script < 2147483648)
    (hf : script.length + bytes script + 1 ≤ fuel) :
    ∃ st1, clientSocketProcessor fuel version script st = .ok st1 ∧ ClientStep st st1 := by
  obtain ⟨st1, h1, s1⟩ := clientLoop_total fuel script
    (st.guardedSend (formatCommand "hello".toList ("OpenDungeons V ".toList ++ version))) hb hf
  exact ⟨st1, h1, clientStep_trans (clientStep_guardedSend st _) s1⟩

theorem cutFirst_closed (b : Str) (hc : Closed b) (hk : 0 < b.count '>') :
    ∃ p, '>' ∉ p ∧ b = p ++ '>' :: cutFirst b ∧ Closed (cutFirst b) ∧
      (cutFirst b).count '>' + 1 = b.count '>' := by
  have hne : b ≠ [] := fun e => by simp [e] at hk
  obtain ⟨p, q, rfl, hp⟩ := List.eq_append_cons_of_mem (closed_mem hc hne)
  rw [cutFirst_append_cons p q hp, count_append_cons p q hp]
  exact ⟨p, hp, rfl, closed_tail p q hc, rfl⟩

theorem iterate_cutFirst (buf : Str) (hc : Closed buf) (j : Nat) (hj : j ≤ buf.count '>') :
    Closed (cutFirst^[j] buf) ∧ (cutFirst^[j] buf).count '>' + j = buf.count '>' ∧
      (cutFirst^[j] buf).length ≤ buf.length := by
  induction j with
  | zero => exact ⟨hc, rfl, le_refl _⟩
  | succ j ih =>
    obtain ⟨c1, c2, c3⟩ := ih (by omega)
    obtain ⟨p, _, e, c4, c5⟩ := cutFirst_closed (cutFirst^[j] buf) c1 (by omega)
    rw [Function.iterate_succ_apply']
    refine ⟨c4, by omega, ?_⟩
    have hl : (cutFirst^[j] buf).length = (p ++ '>' :: cutFirst (cutFirst^[j] buf)).length :=
      congrArg List.length e
    simp only [List.length_append, List.length_cons] at hl
    omega

/-- C18: for every buffer shorter than 2^31 characters whose last character is `>` and that
holds `m` characters `>` (so `m >= 1`): call number `j + 1` of `parseCommand`, for `j < m`,
returns normally on the buffer left by the calls before it, leaves that buffer with everything
up to and including its first `>` removed, which is strictly shorter and empty or ending with
`>`, and returns true exactly when `j + 1 < m`; after `m` calls the buffer is empty;
`parseCommand` on the empty buffer returns false with empty `commandName` and `arguments`; and
the first parse followed by the do-while loop returns as soon as `fuel >= m`. -/
theorem drain_loop_terminates (buf : Str) (m : Nat)
    (hlast : buf.getLast? = some '>') (hm : buf.count '>' = m)
    (hlen : buf.length < 2147483648) :
    1 ≤ m ∧
    (∀ j, j < m → ∃ res, parseCommand (cutFirst^[j] buf) = .ok res ∧
      res.command = cutFirst^[j + 1] buf ∧
      res.command.length < (cutFirst^[j] buf).length ∧
      (res.command = [] ∨ res.command.getLast? = some '>') ∧
      res.ret = decide (j + 1 < m)) ∧
    cutFirst^[m] buf = [] ∧
    parseCommand [] = .ok ⟨false, [], [], []⟩ ∧
    ∀ (fuel : Nat) (st : ClientState), m ≤ fuel →
      ∃ st1, processBuffer fuel st buf = .ok st1 := by
  have hc : Closed buf := Or.inr hlast
  have hne : buf ≠ [] := fun e => by simp [e] at hlast
  have hpos : 1 ≤ m := by
    rw [← hm]; exact List.count_pos_iff.mpr (closed_mem hc hne)
  refine ⟨hpos, ?_, ?_, parseCommand_nil, ?_⟩
  · intro j hj
    obtain ⟨c1, c2, c3⟩ := iterate_cutFirst buf hc j (by omega)
    obtain ⟨p, hp, e, c4, c5⟩ := cutFirst_closed (cutFirst^[j] buf) c1 (by omega)
    have hl : (p ++ '>' :: cutFirst (cutFirst^[j] buf)).length < 2147483648 := by
      rw [← e]; omega
    obtain ⟨res, hr, hcmd, hret, _⟩ := parseCommand_cut p _ hp hl
    rw [← e] at hr
    refine ⟨res, hr, ?_, ?_, ?_, ?_⟩
    · rw [hcmd, Function.iterate_succ_apply']
    · rw [hcmd]
      have hl2 := congrArg List.length e
      simp only [List.length_append, List.length_cons] at hl2
      omega
    · rw [hcmd]; exact c4
    · rw [hret]
      have hz := closed_count c4
      by_cases hq : cutFirst (cutFirst^[j] buf) = []
      · have : (cutFirst (cutFirst^[j] buf)).count '>' = 0 := hz.mp hq
        simp only [hq, ne_eq, not_true_eq_false, decide_False]
        symm; rw [decide_eq_false_iff_not]; omega
      · have : (cutFirst (cutFirst^[j] buf)).count '>' ≠ 0 := fun h0 => hq (hz.mpr h0)
        simp only [ne_eq, hq, not_false_eq_true, decide_True]
        symm; rw [decide_eq_true_iff]; omega
  · obtain ⟨c1, c2, _⟩ := iterate_cutFirst buf hc m (by omega)
    exact (closed_count c1).mpr (by omega)
  · intro fuel st hf
    obtain ⟨st1, h1, _⟩ := processBuffer_total fuel buf st hc hlen (by omega) (by omega)
    exact ⟨st1, h1⟩

/-- C18 at the buffer `<a:1><b:2><c:3>`. -/
theorem drain_loop_terminates_witness :
    1 ≤ 3 ∧
    (∀ j, j < 3 → ∃ res, parseCommand (cutFirst^[j] "<a:1><b:2><c:3>".toList) = .ok res ∧
      res.command = cutFirst^[j + 1] "<a:1><b:2><c:3>".toList ∧
      res.command.length < (cutFirst^[j] "<a:1><b:2><c:3>".toList).length ∧
      (res.command = [] ∨ res.command.getLast? = some '>') ∧
      res.ret = decide (j + 1 < 3)) ∧
    cutFirst^[3] "<a:1><b:2><c:3>".toList = [] ∧
    parseCommand [] = .ok ⟨false, [], [], []⟩ ∧
    ∀ (fuel : Nat) (st : ClientState), 3 ≤ fuel →
      ∃ st1, processBuffer fuel st "<a:1><b:2><c:3>".toList = .ok st1 :=
  drain_loop_terminates "<a:1><b:2><c:3>".toList 3 (by decide) (by decide) (by decide)

/-- C12: in `sendToAllClients`, in the relay loop of the chat branch, in the `hello` branch
(the nick reply being shorter than 2^31 characters) and in the whole run of the client's
`clientSocketProcessor` (on a script of fewer than 2^31 characters, with enough fuel), the
operations performed on every connection respect the send guard: every send comes between a
`sem_wait` and the next `sem_post` of that connection, no guard is acquired twice without a
release, every guard is free at the end, and releases and acquires are equal in number. -/
theorem send_guard_discipline (st : ServerState) (str frame : Str) (curSock : ConnId)
    (arguments : Str) (script : Script) (fuel : Nat) (version : Str) (clientScript : Script)
    (cst : ClientState)
    (hreply : (recv script).1.2.length < 2147483648)
    (hbytes : bytes clientScript < 2147483648)
    (hfuel : clientScript.length + bytes clientScript + 1 ≤ fuel) :
    (∃ ops, (sendToAllClients st str).log = st.log ++ ops ∧
      ∀ c, Disciplined (opsOn c ops) ∧ guardDelta (opsOn c ops) = 0) ∧
    (∃ ops, (relay st frame).log = st.log ++ ops ∧
      ∀ c, Disciplined (opsOn c ops) ∧ guardDelta (opsOn c ops) = 0) ∧
    (∃ st1 nick rest ops, helloBranch curSock arguments st script = .ok (st1, nick, rest) ∧
      st1.log = st.log ++ ops ∧
      ∀ c, Disciplined (opsOn c ops) ∧ guardDelta (opsOn c ops) = 0) ∧
    (∃ cst1 ops, clientSocketProcessor fuel version clientScript cst = .ok cst1 ∧
      cst1.log = cst.log ++ ops ∧ Disciplined ops ∧ guardDelta ops = 0) := by
  refine ⟨⟨_, by rw [sendToAllClients_eq], fun c => ?_⟩,
    ⟨_, by rw [relay_eq], fun c => ?_⟩, ?_, ?_⟩
  · exact ⟨Disciplined_guardedOps c str _, Disciplined_delta (Disciplined_guardedOps c str _)⟩
  · exact ⟨Disciplined_guardedOps c frame _,
      Disciplined_delta (Disciplined_guardedOps c frame _)⟩
  · obtain ⟨r, hr⟩ : ∃ r, parseCommand (recv script).1.2 = .ok r :=
      ⟨_, parseCommand_eq _ hreply⟩
    refine ⟨_, _, _, _, helloBranch_eq curSock arguments st script r hr, rfl, fun c => ?_⟩
    exact ⟨Disciplined_hello c curSock _, Disciplined_delta (Disciplined_hello c curSock _)⟩
  · obtain ⟨cst1, h1, _, _, ops, hl, hd⟩ :=
      clientSocketProcessor_total fuel version clientScript cst hbytes hfuel
    exact ⟨cst1, ops, h1, hl, hd, Disciplined_delta hd⟩

/-- C12 in the scenario. -/
theorem send_guard_discipline_witness :
    (∃ ops, (sendToAllClients scenarioServer "<newturn:7>".toList).log
        = scenarioServer.log ++ ops ∧
      ∀ c, Disciplined (opsOn c ops) ∧ guardDelta (opsOn c ops) = 0) ∧
    (∃ ops, (relay scenarioServer "<chat:Bob:hi>".toList).log = scenarioServer.log ++ ops ∧
      ∀ c, Disciplined (opsOn c ops) ∧ guardDelta (opsOn c ops) = 0) ∧
    (∃ st1 nick rest ops,
      helloBranch 1 "TestClient".toList scenarioServer scenarioReplies = .ok (st1, nick, rest) ∧
      st1.log = scenarioServer.log ++ ops ∧
      ∀ c, Disciplined (opsOn c ops) ∧ guardDelta (opsOn c ops) = 0) ∧
    (∃ cst1 ops,
      clientSocketProcessor 40 "0.1".toList
          [(11, "<picknick:>".toList), (21, "<addtile:0 0 1 100>".toList)]
          (freshClient "Bob".toList) = .ok cst1 ∧
      cst1.log = (freshClient "Bob".toList).log ++ ops ∧ Disciplined ops ∧
      guardDelta ops = 0) :=
  send_guard_discipline scenarioServer "<newturn:7>".toList "<chat:Bob:hi>".toList 1
    "TestClient".toList scenarioReplies 40 "0.1".toList
    [(11, "<picknick:>".toList), (21, "<addtile:0 0 1 100>".toList)] (freshClient "Bob".toList)
    (by decide) (by decide) (by decide)

end OpenDungeons
